import Mathlib

/-!
# MetalLB operator: configuration reconciliation and chart parameters

A shallow embedding of `controllers/reconcile_configmap.go`, of the chart
parameters and chart values of `pkg/helm/config.go` and of the patching of the
rendered objects in `pkg/helm/helm.go`, followed by the properties proved about
them.

Conventions of the embedding:

* a Go `error` result is an `Except Error _`; `nil` is `Except.ok`;
* the cluster client `client.Client` is a record of operations over an
  explicit store state; writes return the new state, and every write the
  code issues is also recorded in a trace;
* an out-parameter that a failed client call leaves untouched keeps its Go
  zero value (an empty list, an empty object).
-/

namespace MetalLBOperator

/-! ## Errors -/

/-- Go `error` values as far as the code tells them apart: the store's
not-found condition, any other failure, and `errors.Wrap` around a cause. -/
inductive Error where
  | notFound : String → Error
  | other : String → Error
  | wrap : String → Error → Error
deriving DecidableEq, Repr

/-- The predicate `k8serrors.IsNotFound`, which looks through wrapping. -/
def IsNotFound : Error → Bool
  | .notFound _ => true
  | .other _ => false
  | .wrap _ e => IsNotFound e

/-! ## Resources -/

/-- An item of `metallbv1beta1.AddressPoolList`: object name and namespace, the
rest of the object carried as one value. -/
structure AddressPool where
  Name : String
  Namespace : String
  Spec : String
deriving DecidableEq, Repr

/-- An item of `metallbv1beta1.BGPPeerList`. -/
structure BGPPeer where
  Name : String
  Namespace : String
  Spec : String
deriving DecidableEq, Repr

/-- An item of `metallbv1beta1.BFDProfileList`. -/
structure BFDProfile where
  Name : String
  Namespace : String
  Spec : String
deriving DecidableEq, Repr

/-- The type `metav1.OwnerReference`. -/
structure OwnerReference where
  APIVersion : String
  Kind : String
  Name : String
  UID : String
  Controller : Bool
  BlockOwnerDeletion : Bool
deriving DecidableEq, Repr

/-- The owning custom resource `metallbv1beta1.MetalLB`, as far as the
reconciler reads it. -/
structure MetalLB where
  Name : String
  Namespace : String
  UID : String
deriving DecidableEq, Repr

/-- The type `corev1.ConfigMap`; `Data` is the Go map as an association list. -/
structure ConfigMap where
  Name : String
  Namespace : String
  OwnerReferences : List OwnerReference
  Data : List (String × String)
deriving DecidableEq, Repr

/-- The Go zero value `&corev1.ConfigMap{}`. -/
def ConfigMap.zero : ConfigMap :=
  { Name := "", Namespace := "", OwnerReferences := [], Data := [] }

/-- The Go zero value `&metallbv1beta1.MetalLB{}`. -/
def MetalLB.zero : MetalLB :=
  { Name := "", Namespace := "", UID := "" }

/-- Go map indexing `m[k]` on a `map[string]string`: the zero value `""` for a
missing key. -/
def dataAt (m : List (String × String)) (k : String) : String :=
  (m.lookup k).getD ""

/-- The type `render.OperatorConfig`. -/
structure OperatorConfig where
  NameSpace : String
  ConfigMapName : String
  DataField : String
  Pools : List AddressPool
  Peers : List BGPPeer
  BFDProfiles : List BFDProfile
deriving DecidableEq, Repr

def ConfigMapName : String := "config"

def ConfigDataField : String := "config"

/-! ## The store client -/

/-- A write the code asks of the store. -/
inductive Write where
  | create : ConfigMap → Write
  | update : ConfigMap → Write
  | delete : ConfigMap → Write
deriving DecidableEq, Repr

/-- The operations of `client.Client` the code uses, over a store state `σ`.
`Get` takes namespace and name. `Create` and `Update` return the error, if
any, and the store state after the call. -/
structure Client (σ : Type) where
  ListAddressPools : σ → Except Error (List AddressPool)
  ListBGPPeers : σ → Except Error (List BGPPeer)
  ListBFDProfiles : σ → Except Error (List BFDProfile)
  GetConfigMap : σ → String → String → Except Error ConfigMap
  GetMetalLB : σ → String → String → Except Error MetalLB
  Create : σ → ConfigMap → Option Error × σ
  Update : σ → ConfigMap → Option Error × σ

/-- What a `List` call leaves in the list object: the listed items, or the
untouched empty list when the call failed. -/
def listed {α : Type} : Except Error (List α) → List α
  | .ok l => l
  | .error _ => []

/-- The Go test `err != nil && !k8serrors.IsNotFound(err)` on a call result. -/
def failsHard {α : Type} : Except Error α → Bool
  | .ok _ => false
  | .error e => !IsNotFound e

/-! ## sort.Slice -/

/-- Go's `<` on strings, the lexicographic order, decided on the characters. -/
def stringLess (a b : String) : Bool :=
  decide (a.data < b.data)

/-- Inner loop of the insertion sort behind `sort.Slice`
(`for j := i; j > a && less(j, j-1); j-- { swap(j, j-1) }`): the new element
`x` moves left past every element it is strictly less than. The prefix is
held last element first. -/
def insertLeft {α : Type} (less : α → α → Bool) (x : α) : List α → List α
  | [] => [x]
  | y :: ys => if less x y then y :: insertLeft less x ys else x :: y :: ys

/-- Outer loop of the insertion sort (`for i := a + 1; i < b; i++`): `acc` is
the processed prefix, last element first. -/
def insertionSortFrom {α : Type} (less : α → α → Bool) : List α → List α → List α
  | acc, [] => acc.reverse
  | acc, x :: xs => insertionSortFrom less (insertLeft less x acc) xs

/-- The call `sort.Slice(s, less)` of the Go standard library, by the insertion
sort it runs on slices shorter than 12. The library promises nothing about the
order of elements that `less` does not separate, and on longer slices it may
leave them in another order than this definition does. -/
def sortSlice {α : Type} (less : α → α → Bool) (s : List α) : List α :=
  insertionSortFrom less [] s

/-! ## operatorConfig -/

/-- One `List` call followed by its test
`if err != nil && !k8serrors.IsNotFound(err) { return nil, errors.Wrap(err, msg) }`:
the items now in the list object, or the wrapped failure. -/
def listOrAbort {α : Type} (msg : String) (r : Except Error (List α)) :
    Except Error (List α) :=
  match r with
  | .ok items => .ok items
  | .error e => if IsNotFound e then .ok [] else .error (.wrap msg e)

def operatorConfig {σ : Type} (c : Client σ) (s : σ) : Except Error OperatorConfig := do
  let addressPools ← listOrAbort "failed to fetch address pools" (c.ListAddressPools s)
  let bgpPeers ← listOrAbort "failed to fetch bgp peers" (c.ListBGPPeers s)
  let bfdProfiles ← listOrAbort "failed to fetch bfd profiles" (c.ListBFDProfiles s)
  pure
    { NameSpace := ""
      ConfigMapName := ""
      DataField := ConfigDataField
      Pools := sortSlice (fun i j => stringLess i.Name j.Name) addressPools
      Peers := sortSlice (fun i j => stringLess i.Name j.Name) bgpPeers
      BFDProfiles := sortSlice (fun i j => stringLess i.Name j.Name) bfdProfiles }

/-! ## Image references -/

/-- The loop of `strings.Split` for a one-character separator: `cur` holds the
characters of the current piece, last first. -/
def splitFrom (sep : Char) (cur : List Char) : List Char → List (List Char)
  | [] => [cur.reverse]
  | ch :: rest =>
    if ch = sep then cur.reverse :: splitFrom sep [] rest else splitFrom sep (ch :: cur) rest

/-- The call `strings.Split(s, sep)` for a one-character separator. -/
def Split (s : String) (sep : Char) : List String :=
  (splitFrom sep [] s.data).map String.mk

/-- The function `getImageNameTag`. `Split` never returns an empty slice, so
both index expressions are in range. -/
def getImageNameTag (envValue : String) : String × String :=
  let img := Split envValue ':'
  if img.length = 1 then (img.getD 0 "", "") else (img.getD 0 "", img.getD 1 "")

/-! ## Rendering and owner references -/

/-- Modelled from the spec: `render.OperatorConfigToMetalLB` of `pkg/render` is
not among the sources. The artifact it returns is named by the snapshot's
artifact name, located in the snapshot's namespace, and stores the serialized
snapshot under the snapshot's data field key; a freshly rendered artifact has no
owner references. The serializer is a parameter and may fail. -/
def OperatorConfigToMetalLB (serialize : OperatorConfig → Except Error String)
    (config : OperatorConfig) : Except Error ConfigMap :=
  match serialize config with
  | .error e => .error e
  | .ok payload =>
    .ok
      { Name := config.ConfigMapName
        Namespace := config.NameSpace
        OwnerReferences := []
        Data := [(config.DataField, payload)] }

/-- The type `schema.GroupVersionKind`. -/
structure GroupVersionKind where
  Group : String
  Version : String
  Kind : String
deriving DecidableEq, Repr

/-- The `*runtime.Scheme` as far as the code consults it: the kind it registers
for the `MetalLB` Go type, if any. -/
structure Scheme where
  MetalLB : Option GroupVersionKind
deriving DecidableEq, Repr

/-- The helper `validateOwner` of controller-runtime: a namespaced owner needs a
namespaced dependent in the same namespace. -/
def validateOwner (owner : MetalLB) (object : ConfigMap) : Except Error Unit :=
  let ownerNs := owner.Namespace
  if ownerNs ≠ "" then
    let objNs := object.Namespace
    if objNs = "" then
      .error (.other "cluster-scoped resource must not have a namespace-scoped owner")
    else if ownerNs ≠ objNs then
      .error (.other "cross-namespace owner references are disallowed")
    else .ok ()
  else .ok ()

/-- The function `schema.ParseGroupVersion`: group and version of an `APIVersion`
string, or nothing when it holds more than one slash. -/
def ParseGroupVersion (gv : String) : Option (String × String) :=
  if gv = "" ∨ gv = "/" then some ("", "")
  else
    match splitFrom '/' [] gv.data with
    | [v] => some ("", String.mk v)
    | [g, v] => some (String.mk g, String.mk v)
    | _ => none

/-- The helper `referSameObject` of controller-runtime: same group, kind and
name; a reference whose `APIVersion` does not parse refers to nothing. -/
def referSameObject (a b : OwnerReference) : Bool :=
  match ParseGroupVersion a.APIVersion, ParseGroupVersion b.APIVersion with
  | some aGV, some bGV => decide (aGV.1 = bGV.1 ∧ a.Kind = b.Kind ∧ a.Name = b.Name)
  | _, _ => false

/-- The function `metav1.GetControllerOf`: the first owner reference flagged as
controller. -/
def GetControllerOf (refs : List OwnerReference) : Option OwnerReference :=
  refs.find? (fun r => r.Controller)

/-- The helper `upsertOwnerRef` of controller-runtime: overwrite the first
reference to the same object, or append. -/
def upsertOwnerRef (ref : OwnerReference) : List OwnerReference → List OwnerReference
  | [] => [ref]
  | r :: rs =>
    if referSameObject r ref then ref :: rs else r :: upsertOwnerRef ref rs

/-- The string `gvk.GroupVersion().String()`. -/
def GroupVersionKind.apiVersion (gvk : GroupVersionKind) : String :=
  if gvk.Group = "" then gvk.Version else gvk.Group ++ "/" ++ gvk.Version

/-- The controller reference `SetControllerReference` builds for an owner. -/
def controllerRef (gvk : GroupVersionKind) (owner : MetalLB) : OwnerReference :=
  { APIVersion := gvk.apiVersion
    Kind := gvk.Kind
    Name := owner.Name
    UID := owner.UID
    Controller := true
    BlockOwnerDeletion := true }

/-- The function `controllerutil.SetControllerReference` of controller-runtime,
returning the controlled object with its owner references updated. -/
def SetControllerReference (owner : MetalLB) (controlled : ConfigMap) (scheme : Scheme) :
    Except Error ConfigMap :=
  match validateOwner owner controlled with
  | .error e => .error e
  | .ok _ =>
    match scheme.MetalLB with
    | none => .error (.other "no kind is registered for the type")
    | some gvk =>
      let ref := controllerRef gvk owner
      match GetControllerOf controlled.OwnerReferences with
      | some existing =>
        if !referSameObject existing ref then
          .error (.other "object is already owned by another controller")
        else
          .ok { controlled with
                OwnerReferences := upsertOwnerRef ref controlled.OwnerReferences }
      | none =>
        .ok { controlled with
              OwnerReferences := upsertOwnerRef ref controlled.OwnerReferences }

/-! ## reconcileConfigMap -/

/-- What one call leaves behind: the returned error (or `nil`), the writes it
issued in order, and the store afterwards. -/
structure Outcome (σ : Type) where
  result : Except Error Unit
  writes : List Write
  store : σ

/-- The object and error a `Get` call leaves: on failure the object passed in
stays at its zero value. -/
def getInto {α : Type} (zero : α) : Except Error α → α × Option Error
  | .ok o => (o, none)
  | .error e => (zero, some e)

/-- The test `k8serrors.IsNotFound(err)` on a possibly nil error. -/
def isNotFoundErr : Option Error → Bool
  | none => false
  | some e => IsNotFound e

/-- The function `reconcileConfigMap`. The renderer `render.OperatorConfigToMetalLB`
and the constant `defaultMetalLBCrName` are parameters; logging is left out. -/
def reconcileConfigMap {σ : Type} (c : Client σ)
    (render : OperatorConfig → Except Error ConfigMap)
    (defaultMetalLBCrName : String) (nameSpace : String) (scheme : Scheme) (s : σ) :
    Outcome σ :=
  match operatorConfig c s with
  | .error err =>
    { result := .error (.wrap "failed to collect configmap data" err), writes := [], store := s }
  | .ok config =>
    let config := { config with NameSpace := nameSpace, ConfigMapName := ConfigMapName }
    match render config with
    | .error err => { result := .error err, writes := [], store := s }
    | .ok rendered =>
      let (existing, err) := getInto ConfigMap.zero (c.GetConfigMap s nameSpace ConfigMapName)
      if isNotFoundErr err then
        let (metalLbInstance, err) :=
          getInto MetalLB.zero (c.GetMetalLB s nameSpace defaultMetalLBCrName)
        if err.isSome && isNotFoundErr err then
          { result := .ok (), writes := [], store := s }
        else
          match SetControllerReference metalLbInstance rendered scheme with
          | .error err =>
            { result := .error (.wrap "Failed to set controller reference" err)
              writes := []
              store := s }
          | .ok rendered =>
            let (err, s1) := c.Create s rendered
            { result := match err with
                | some e => .error e
                | none => .ok ()
              writes := [Write.create rendered]
              store := s1 }
      else
        let rendered := { rendered with OwnerReferences := existing.OwnerReferences }
        if dataAt existing.Data ConfigDataField = dataAt rendered.Data ConfigDataField then
          { result := .ok (), writes := [], store := s }
        else
          let (err, s1) := c.Update s rendered
          { result := match err with
              | some e => .error (.wrap "failed to update configmap" e)
              | none => .ok ()
            writes := [Write.update rendered]
            store := s1 }

/-! ## An in-memory store -/

/-- A store holding the listed collections, the config maps and the custom
resources; objects are addressed by namespace and name. -/
structure Store where
  AddressPools : List AddressPool
  BGPPeers : List BGPPeer
  BFDProfiles : List BFDProfile
  ConfigMaps : List ConfigMap
  MetalLBs : List MetalLB
deriving DecidableEq, Repr

/-- Whether a config map sits at the given namespace and name. -/
def ConfigMap.hasKey (nameSpace name : String) (cm : ConfigMap) : Bool :=
  decide (cm.Namespace = nameSpace ∧ cm.Name = name)

/-- The store client whose calls fail only for the state of the store: `Get` of
a missing object is not-found, `Create` of a present one and `Update` of a
missing one are refused, and nothing but `Create` and `Update` changes it. Its
`List` calls return the collections in the order the store holds them; another
listing order is another store with the same collections permuted. -/
def storeClient : Client Store where
  ListAddressPools := fun s => .ok s.AddressPools
  ListBGPPeers := fun s => .ok s.BGPPeers
  ListBFDProfiles := fun s => .ok s.BFDProfiles
  GetConfigMap := fun s nameSpace name =>
    match s.ConfigMaps.find? (ConfigMap.hasKey nameSpace name) with
    | some cm => .ok cm
    | none => .error (.notFound name)
  GetMetalLB := fun s nameSpace name =>
    match s.MetalLBs.find? (fun m => decide (m.Namespace = nameSpace ∧ m.Name = name)) with
    | some m => .ok m
    | none => .error (.notFound name)
  Create := fun s o =>
    match s.ConfigMaps.find? (ConfigMap.hasKey o.Namespace o.Name) with
    | some _ => (some (.other "already exists"), s)
    | none => (none, { s with ConfigMaps := s.ConfigMaps ++ [o] })
  Update := fun s o =>
    match s.ConfigMaps.find? (ConfigMap.hasKey o.Namespace o.Name) with
    | some _ =>
      (none, { s with ConfigMaps :=
                s.ConfigMaps.map (fun cm => if cm.hasKey o.Namespace o.Name then o else cm) })
    | none => (some (.notFound o.Name), s)

/-! ## Concrete inputs -/

/-- A store with two address pools of the same name in two namespaces. -/
def storeTwoNamespaces : Store :=
  { AddressPools := [⟨"pool", "ns-a", "192.168.1.0/24"⟩, ⟨"pool", "ns-b", "10.0.0.0/8"⟩]
    BGPPeers := []
    BFDProfiles := []
    ConfigMaps := []
    MetalLBs := [] }

/-- The same store listing its two address pools in the other order. -/
def storeTwoNamespacesSwapped : Store :=
  { storeTwoNamespaces with
    AddressPools := [⟨"pool", "ns-b", "10.0.0.0/8"⟩, ⟨"pool", "ns-a", "192.168.1.0/24"⟩] }

/-- A store with three address pools and two peers, listed out of order. -/
def storeUnordered : Store :=
  { AddressPools := [⟨"gold", "metallb-system", "a"⟩, ⟨"bronze", "metallb-system", "b"⟩,
      ⟨"silver", "metallb-system", "c"⟩]
    BGPPeers := [⟨"peer2", "metallb-system", "x"⟩, ⟨"peer1", "metallb-system", "y"⟩]
    BFDProfiles := []
    ConfigMaps := []
    MetalLBs := [] }

/-- A client over the in-memory store whose address pool listing answers
not-found. -/
def poolsNotFoundClient : Client Store :=
  { storeClient with ListAddressPools := fun _ => .error (.notFound "addresspools") }

/-- The snapshot of `storeUnordered`, every collection in name order. -/
def snapshotUnordered : OperatorConfig :=
  { NameSpace := ""
    ConfigMapName := ""
    DataField := "config"
    Pools := [⟨"bronze", "metallb-system", "b"⟩, ⟨"gold", "metallb-system", "a"⟩,
      ⟨"silver", "metallb-system", "c"⟩]
    Peers := [⟨"peer1", "metallb-system", "y"⟩, ⟨"peer2", "metallb-system", "x"⟩]
    BFDProfiles := [] }

/-- A serializer for the examples: the pool names, each closed by a semicolon. -/
def serializePoolNames (config : OperatorConfig) : Except Error String :=
  .ok (String.join (config.Pools.map (fun p => p.Name ++ ";")))

/-- The scheme of the examples, with the `MetalLB` kind registered. -/
def schemeWithMetalLB : Scheme :=
  { MetalLB := some { Group := "metallb.io", Version := "v1beta1", Kind := "MetalLB" } }

/-- The custom resource of the examples. -/
def metalLBInstance : MetalLB :=
  { Name := "metallb", Namespace := "metallb-system", UID := "uid-1" }

/-- An owner reference left on the stored artifact by some earlier owner. -/
def earlierOwner : OwnerReference :=
  { APIVersion := "apps/v1", Kind := "Deployment", Name := "adopter", UID := "uid-7"
    Controller := true, BlockOwnerDeletion := false }

/-- A store with one pool and the custom resource, and no config artifact. -/
def storeNoArtifact : Store :=
  { AddressPools := [⟨"gold", "metallb-system", "a"⟩]
    BGPPeers := []
    BFDProfiles := []
    ConfigMaps := []
    MetalLBs := [metalLBInstance] }

/-- A store with neither config artifact nor custom resource. -/
def storeNoOwner : Store :=
  { AddressPools := [], BGPPeers := [], BFDProfiles := [], ConfigMaps := [], MetalLBs := [] }

/-- A stored config artifact whose data is out of date. -/
def staleArtifact : ConfigMap :=
  { Name := "config", Namespace := "metallb-system", OwnerReferences := [earlierOwner]
    Data := [("config", "silver;")] }

/-- A store whose config artifact is out of date. -/
def storeStale : Store :=
  { storeNoArtifact with ConfigMaps := [staleArtifact] }

/-- The snapshot collected from `storeNoArtifact` and `storeStale`. -/
def snapshotGold : OperatorConfig :=
  { NameSpace := "", ConfigMapName := "", DataField := "config"
    Pools := [⟨"gold", "metallb-system", "a"⟩], Peers := [], BFDProfiles := [] }

/-- The snapshot collected from `storeNoOwner`. -/
def snapshotNone : OperatorConfig :=
  { NameSpace := "", ConfigMapName := "", DataField := "config"
    Pools := [], Peers := [], BFDProfiles := [] }

/-- The artifact rendered from `snapshotGold` for namespace `metallb-system`. -/
def renderedGold : ConfigMap :=
  { Name := "config", Namespace := "metallb-system", OwnerReferences := []
    Data := [("config", "gold;")] }

/-- The artifact rendered from `snapshotNone` for namespace `metallb-system`. -/
def renderedNone : ConfigMap :=
  { Name := "config", Namespace := "metallb-system", OwnerReferences := []
    Data := [("config", "")] }

/-- A client over the in-memory store whose `Get` of a config map times out. -/
def getTimesOutClient : Client Store :=
  { storeClient with
    GetConfigMap := fun _ _ _ => .error (.other "etcdserver: request timed out") }

/-! ## Chart parameters from the environment -/

/-- The process environment as a list of assignments. -/
abbrev Environ := List (String × String)

/-- The call `os.Getenv(name)`: the value of the variable, or `""` when it is
unset. -/
def Getenv (env : Environ) (name : String) : String :=
  (env.lookup name).getD ""

/-- The loop of `strconv.Atoi` over the digits: `n = n*10 + int(ch - '0')`, a
syntax error on any other character. -/
def atoiDigits : List Char → Nat → Option Nat
  | [], n => some n
  | ch :: rest, n => if ch.isDigit then atoiDigits rest (n * 10 + (ch.toNat - 48)) else none

/-- The body of `strconv.Atoi` after the sign: one or more decimal digits, the
number negated when `neg`, within the range of a 64-bit `int`, from `-2^63` to
`2^63 - 1` (`2^63` is 9223372036854775808). -/
def atoiUnsigned (neg : Bool) (digits : List Char) : Except Error Int :=
  if digits = [] then .error (.other "strconv.Atoi: invalid syntax")
  else
    match atoiDigits digits 0 with
    | none => .error (.other "strconv.Atoi: invalid syntax")
    | some n =>
      if neg then
        if n ≤ 9223372036854775808 then .ok (-(n : Int)) else .error (.other "strconv.Atoi: value out of range")
      else
        if n < 9223372036854775808 then .ok (n : Int) else .error (.other "strconv.Atoi: value out of range")

/-- The function `strconv.Atoi` for a 64-bit `int`: an optional sign
(`if s[0] == '-' || s[0] == '+' { s = s[1:] }`), then the digits. -/
def Atoi (s : String) : Except Error Int :=
  match s.data with
  | [] => .error (.other "strconv.Atoi: invalid syntax")
  | ch :: rest =>
    if ch = '-' then atoiUnsigned true rest
    else if ch = '+' then atoiUnsigned false rest
    else atoiUnsigned false (ch :: rest)

def valueWithDefault (env : Environ) (name : String) (def_ : Int) : Except Error Int :=
  let val := Getenv env name
  if val ≠ "" then
    match Atoi val with
    | .error err => .error err
    | .ok res => .ok res
  else .ok def_

def bgpFrr : String := "frr"

structure imageInfo where
  repo : String
  tag : String
deriving DecidableEq, Repr

/-- The type `chartConfig`. The three image pointers are set on every path on
which `loadConfig` succeeds and are held by value. -/
structure chartConfig where
  isOpenShift : Bool
  isFrrEnabled : Bool
  controllerImage : imageInfo
  speakerImage : imageInfo
  frrImage : imageInfo
  mlBindPort : Int
  frrMetricsPort : Int
  metricsPort : Int
  enablePodMonitor : Bool
deriving DecidableEq, Repr

/-- The function `podMonitorAvailable`; `crdGet` is the client's `Get` of a
custom resource definition by name, returning the error or `nil`. -/
def podMonitorAvailable (crdGet : String → Option Error) : Bool :=
  (crdGet "podmonitors.monitoring.coreos.com").isNone

/-- What `loadConfig` leaves behind: its result and the names of the objects it
asked the store for, in order. -/
structure Loaded where
  result : Except Error chartConfig
  gets : List String

/-- The function `loadConfig`, with the environment and the client's `Get` as
parameters. -/
def loadConfig (crdGet : String → Option Error) (env : Environ) (isOCP : Bool) : Loaded :=
  let ctrlImage := Getenv env "CONTROLLER_IMAGE"
  if ctrlImage = "" then
    { result := .error (.other "CONTROLLER_IMAGE env variable must be set"), gets := [] }
  else
    let controllerImage : imageInfo :=
      { repo := (getImageNameTag ctrlImage).1, tag := (getImageNameTag ctrlImage).2 }
    let speakerImage := Getenv env "SPEAKER_IMAGE"
    if speakerImage = "" then
      { result := .error (.other "SPEAKER_IMAGE env variable must be set"), gets := [] }
    else
      let speakerInfo : imageInfo :=
        { repo := (getImageNameTag speakerImage).1, tag := (getImageNameTag speakerImage).2 }
      let isFrrEnabled := decide (Getenv env "METALLB_BGP_TYPE" = bgpFrr)
      let frrImage := Getenv env "FRR_IMAGE"
      if isFrrEnabled ∧ frrImage = "" then
        { result := .error (.other "FRR_IMAGE env variable must be set"), gets := [] }
      else
        let frrInfo : imageInfo :=
          if isFrrEnabled then
            { repo := (getImageNameTag frrImage).1, tag := (getImageNameTag frrImage).2 }
          else { repo := "", tag := "" }
        match valueWithDefault env "MEMBER_LIST_BIND_PORT" 7946 with
        | .error err => { result := .error err, gets := [] }
        | .ok mlBindPort =>
          match valueWithDefault env "FRR_METRICS_PORT" 7473 with
          | .error err => { result := .error err, gets := [] }
          | .ok frrMetricsPort =>
            match valueWithDefault env "METRICS_PORT" 7472 with
            | .error err => { result := .error err, gets := [] }
            | .ok metricsPort =>
              let deploy := decide (Getenv env "DEPLOY_PODMONITORS" = "true")
              { result := .ok
                  { isOpenShift := isOCP
                    isFrrEnabled := isFrrEnabled
                    controllerImage := controllerImage
                    speakerImage := speakerInfo
                    frrImage := frrInfo
                    mlBindPort := mlBindPort
                    frrMetricsPort := frrMetricsPort
                    metricsPort := metricsPort
                    enablePodMonitor := deploy && podMonitorAvailable crdGet }
                gets := if deploy then ["podmonitors.monitoring.coreos.com"] else [] }

/-- The decimal digit character of `d`. -/
def digitChar (d : Nat) : Char :=
  Char.ofNat (48 + d)

/-- The number written by a sequence of decimal digits, first digit first. -/
def digitsValue (ds : List Nat) : Nat :=
  ds.foldl (fun acc d => acc * 10 + d) 0

/-- The text `s` is a decimal numeral of the integer `n`: an optional sign
followed by one or more decimal digits that write `n`. -/
def IsDecimalText (s : String) (n : Int) : Prop :=
  ∃ ds : List Nat, ds ≠ [] ∧ (∀ d ∈ ds, d < 10) ∧
    ((s.data = ds.map digitChar ∧ n = (digitsValue ds : Int)) ∨
      (s.data = '+' :: ds.map digitChar ∧ n = (digitsValue ds : Int)) ∨
      (s.data = '-' :: ds.map digitChar ∧ n = -(digitsValue ds : Int)))

/-- An environment with the two mandatory images and nothing else. -/
def envMinimal : Environ :=
  [("CONTROLLER_IMAGE", "quay.io/x/c:v1"), ("SPEAKER_IMAGE", "quay.io/x/s:v1")]

/-- An environment selecting the FRR mode with its image. -/
def envFrr : Environ :=
  [("CONTROLLER_IMAGE", "quay.io/x/c:v1"), ("SPEAKER_IMAGE", "quay.io/x/s:v1"),
    ("METALLB_BGP_TYPE", "frr"), ("FRR_IMAGE", "quay.io/frr/frr:8.0"),
    ("METRICS_PORT", "9000"), ("DEPLOY_PODMONITORS", "true")]

/-- A store in which every custom resource definition is found. -/
def crdPresent : String → Option Error :=
  fun _ => none

/-! ## Untyped values -/

/-- A Go `interface{}` value as the chart code and the rendered objects hold it:
`nil`, a string, an integer, a boolean, a `[]interface{}` or a
`map[string]interface{}` (as a list of fields). -/
inductive Value where
  | null : Value
  | str : String → Value
  | int : Int → Value
  | bool : Bool → Value
  | list : List Value → Value
  | map : List (String × Value) → Value

/-- Go map indexing `v, ok := m[k]`. -/
def mapGet {β : Type} : List (String × β) → String → Option β
  | [], _ => none
  | (k', v') :: rest, k => if k' = k then some v' else mapGet rest k

/-- Go map assignment `m[k] = v`. -/
def mapSet {β : Type} : List (String × β) → String → β → List (String × β)
  | [], k, v => [(k, v)]
  | (k', v') :: rest, k, v => if k' = k then (k, v) :: rest else (k', v') :: mapSet rest k v

/-- What `unstructured.NestedFieldNoCopy` and its typed variants return: the
value found, nothing found, or an accessor error (with nothing found). -/
inductive Nested (α : Type) where
  | found : α → Nested α
  | missing : Nested α
  | failed : Error → Nested α

/-- The function `unstructured.NestedFieldNoCopy`. -/
def NestedFieldNoCopy : Value → List String → Nested Value
  | val, [] => .found val
  | .null, _ :: _ => .missing
  | .map m, field :: rest =>
    match mapGet m field with
    | some v => NestedFieldNoCopy v rest
    | none => .missing
  | _, _ :: _ => .failed (.other "accessor error: expected map[string]interface{}")

/-! ## Chart values -/

/-- The type `metallbv1beta1.Config`: the per-workload overrides. -/
structure Config where
  Affinity : Option Value
  Resources : Option Value

/-- The type `metallbv1beta1.MetalLBSpec`, as far as the chart code reads it. -/
structure MetalLBSpec where
  LogLevel : String
  SpeakerNodeSelector : Option (List (String × String))
  SpeakerTolerations : Option (List Value)
  ControllerConfig : Option Config
  SpeakerConfig : Option Config

/-- The custom resource `*metallbv1beta1.MetalLB` as the chart code receives
it. -/
structure MetalLBResource where
  Spec : MetalLBSpec

/-- Modelled from the spec: the constant `metallbv1beta1.LogLevelInfo` of the API
package is not among the sources; the documented default log level is "info". -/
def LogLevelInfo : String := "info"

def withPrometheusValues (c : chartConfig) (valueMap : List (String × Value)) :
    List (String × Value) :=
  mapSet valueMap "prometheus" (.map
    [("metricsPort", .int c.metricsPort),
      ("podMonitor", .map [("enabled", .bool c.enablePodMonitor)])])

def withControllerValues (c : chartConfig) (crdConfig : MetalLBResource)
    (valueMap : List (String × Value)) : List (String × Value) :=
  let logLevel := if crdConfig.Spec.LogLevel ≠ "" then crdConfig.Spec.LogLevel else LogLevelInfo
  if c.isOpenShift then
    mapSet valueMap "controller" (.map
      [("image", .map
          [("repository", .str c.controllerImage.repo), ("tag", .str c.controllerImage.tag)]),
        ("serviceAccount", .map [("create", .bool false), ("name", .str "controller")]),
        ("logLevel", .str logLevel),
        ("securityContext", .map [("runAsNonRoot", .bool true)])])
  else
    mapSet valueMap "controller" (.map
      [("image", .map
          [("repository", .str c.controllerImage.repo), ("tag", .str c.controllerImage.tag)]),
        ("serviceAccount", .map [("create", .bool false), ("name", .str "controller")]),
        ("logLevel", .str logLevel)])

def withSpeakerValues (c : chartConfig) (crdConfig : MetalLBResource)
    (valueMap : List (String × Value)) : List (String × Value) :=
  let logLevel := if crdConfig.Spec.LogLevel ≠ "" then crdConfig.Spec.LogLevel else LogLevelInfo
  let speaker : List (String × Value) :=
    [("image", .map
        [("repository", .str c.speakerImage.repo), ("tag", .str c.speakerImage.tag)]),
      ("serviceAccount", .map [("create", .bool false), ("name", .str "speaker")]),
      ("frr", .map
        [("enabled", .bool c.isFrrEnabled),
          ("image", .map
            [("repository", .str c.frrImage.repo), ("tag", .str c.frrImage.tag)]),
          ("metricsPort", .int c.frrMetricsPort)]),
      ("memberlist", .map [("enabled", .bool true), ("mlBindPort", .int c.mlBindPort)]),
      ("logLevel", .str logLevel)]
  let speaker :=
    match crdConfig.Spec.SpeakerNodeSelector with
    | some selector =>
      mapSet speaker "nodeSelector" (.map (selector.map (fun kv => (kv.1, Value.str kv.2))))
    | none => speaker
  let speaker :=
    match crdConfig.Spec.SpeakerTolerations with
    | some tolerations => mapSet speaker "tolerations" (.list tolerations)
    | none => speaker
  mapSet valueMap "speaker" (.map speaker)

def patchToChartValues (c : chartConfig) (crdConfig : MetalLBResource)
    (valueMap : List (String × Value)) : List (String × Value) :=
  withSpeakerValues c crdConfig (withControllerValues c crdConfig (withPrometheusValues c valueMap))

/-- A custom resource without any setting. -/
def crEmpty : MetalLBResource :=
  { Spec :=
      { LogLevel := "", SpeakerNodeSelector := none, SpeakerTolerations := none
        ControllerConfig := none, SpeakerConfig := none } }

/-- A custom resource with a node selector for the speaker and the debug level. -/
def crSelector : MetalLBResource :=
  { Spec :=
      { LogLevel := "debug", SpeakerNodeSelector := some [("kubernetes.io/os", "linux")]
        SpeakerTolerations := none, ControllerConfig := none, SpeakerConfig := none } }

/-- Caller-supplied overrides that touch a code-driven section and a foreign one. -/
def overridesMixed : List (String × Value) :=
  [("speaker", .map [("logLevel", .str "warn"), ("extra", .bool true)]),
    ("crds", .map [("enabled", .bool false)])]

/-- The chart configuration loaded from `envFrr` on OpenShift. -/
def cfgFrr : chartConfig :=
  { isOpenShift := true, isFrrEnabled := true
    controllerImage := { repo := "quay.io/x/c", tag := "v1" }
    speakerImage := { repo := "quay.io/x/s", tag := "v1" }
    frrImage := { repo := "quay.io/frr/frr", tag := "8.0" }
    mlBindPort := 7946, frrMetricsPort := 7473, metricsPort := 9000
    enablePodMonitor := true }

/-! ## Rendered objects -/

/-- The type `unstructured.Unstructured`. -/
structure Unstructured where
  Object : List (String × Value)

/-- The function `unstructured.NestedString`. -/
def NestedString (obj : Value) (fields : List String) : Nested String :=
  match NestedFieldNoCopy obj fields with
  | .found (.str s) => .found s
  | .found _ => .failed (.other "accessor error: expected string")
  | .missing => .missing
  | .failed e => .failed e

/-- The function `unstructured.NestedSlice`. -/
def NestedSlice (obj : Value) (fields : List String) : Nested (List Value) :=
  match NestedFieldNoCopy obj fields with
  | .found (.list l) => .found l
  | .found _ => .failed (.other "accessor error: expected []interface{}")
  | .missing => .missing
  | .failed e => .failed e

/-- The helper `getNestedString`: the string at the path, or `""` when it is
not found or not a string. -/
def getNestedString (obj : List (String × Value)) (fields : List String) : String :=
  match NestedString (.map obj) fields with
  | .found s => s
  | _ => ""

def Unstructured.GetKind (u : Unstructured) : String :=
  getNestedString u.Object ["kind"]

def Unstructured.GetName (u : Unstructured) : String :=
  getNestedString u.Object ["metadata", "name"]

def Unstructured.GetNamespace (u : Unstructured) : String :=
  getNestedString u.Object ["metadata", "namespace"]

/-- Go `delete(m, k)`. -/
def mapDelete {β : Type} (m : List (String × β)) (k : String) : List (String × β) :=
  m.filter (fun kv => kv.1 ≠ k)

/-- The helper `setNestedFieldNoCopy` behind `unstructured.SetNestedField`,
`SetNestedMap` and `SetNestedSlice`: missing maps on the way are created, a value
on the way that is not a map is an error. -/
def setNestedFieldNoCopy (obj : List (String × Value)) (value : Value) :
    List String → Except Error (List (String × Value))
  | [] => .ok obj
  | [field] => .ok (mapSet obj field value)
  | field :: rest =>
    match mapGet obj field with
    | some (.map valMap) =>
      match setNestedFieldNoCopy valMap value rest with
      | .ok m => .ok (mapSet obj field (.map m))
      | .error e => .error e
    | some _ =>
      .error (.other "value cannot be set because the path is not a map[string]interface{}")
    | none =>
      match setNestedFieldNoCopy [] value rest with
      | .ok m => .ok (mapSet obj field (.map m))
      | .error e => .error e

/-- The function `unstructured.RemoveNestedField`. -/
def RemoveNestedField (obj : List (String × Value)) : List String → List (String × Value)
  | [] => obj
  | [field] => mapDelete obj field
  | field :: rest =>
    match mapGet obj field with
    | some (.map x) => mapSet obj field (.map (RemoveNestedField x rest))
    | _ => obj

/-- The method `SetNamespace`: an empty namespace removes the field, any other
is set, and the error of the setter is dropped. -/
def Unstructured.SetNamespace (u : Unstructured) (nameSpace : String) : Unstructured :=
  if nameSpace.length = 0 then { Object := RemoveNestedField u.Object ["metadata", "namespace"] }
  else
    match setNestedFieldNoCopy u.Object (.str nameSpace) ["metadata", "namespace"] with
    | .ok m => { Object := m }
    | .error _ => u

def isControllerDeployment (obj : Unstructured) : Bool :=
  obj.GetKind = "Deployment" && obj.GetName = "controller"

def isSpeakerDaemonSet (obj : Unstructured) : Bool :=
  obj.GetKind = "DaemonSet" && obj.GetName = "speaker"

def isServiceMonitor (obj : Unstructured) : Bool :=
  obj.GetKind = "ServiceMonitor"

/-! ## Typed workloads -/

/-- The type `corev1.Container`: its name, its resources and the other
fields. -/
structure Container where
  Name : String
  Resources : Value
  Rest : List (String × Value)

/-- The type `appsv1.Deployment`: kind, name and namespace of its type and object
metadata, the affinity and the containers of its pod template
(`Spec.Template.Spec`), and the other fields. -/
structure Deployment where
  Kind : String
  Name : String
  Namespace : String
  Affinity : Option Value
  Containers : List Container
  Rest : List (String × Value)

/-- The type `appsv1.DaemonSet`, in the same shape. -/
structure DaemonSet where
  Kind : String
  Name : String
  Namespace : String
  Affinity : Option Value
  Containers : List Container
  Rest : List (String × Value)

/-- The conversions of `runtime.DefaultUnstructuredConverter` the code calls:
`FromUnstructured` into a `Deployment` or a `DaemonSet` and `ToUnstructured` back. -/
structure Converter where
  DeploymentFromUnstructured : List (String × Value) → Except Error Deployment
  DeploymentToUnstructured : Deployment → Except Error (List (String × Value))
  DaemonSetFromUnstructured : List (String × Value) → Except Error DaemonSet
  DaemonSetToUnstructured : DaemonSet → Except Error (List (String × Value))

/-- The conversions carry kind and namespace: the typed object has those of the
untyped one, and the untyped result has those of the typed object. -/
structure Converter.KeepsMeta (conv : Converter) : Prop where
  deploymentFrom : ∀ obj d, conv.DeploymentFromUnstructured obj = .ok d →
    d.Kind = (Unstructured.mk obj).GetKind ∧ d.Namespace = (Unstructured.mk obj).GetNamespace
  deploymentTo : ∀ d obj, conv.DeploymentToUnstructured d = .ok obj →
    (Unstructured.mk obj).GetKind = d.Kind ∧ (Unstructured.mk obj).GetNamespace = d.Namespace
  daemonSetFrom : ∀ obj d, conv.DaemonSetFromUnstructured obj = .ok d →
    d.Kind = (Unstructured.mk obj).GetKind ∧ d.Namespace = (Unstructured.mk obj).GetNamespace
  daemonSetTo : ∀ d obj, conv.DaemonSetToUnstructured d = .ok obj →
    (Unstructured.mk obj).GetKind = d.Kind ∧ (Unstructured.mk obj).GetNamespace = d.Namespace

/-! ## Patching the rendered objects -/

/-- The pointer a patch function returns: the pointer it was given
(`return obj, nil`) or a pointer to a newly built object
(`return &unstructured.Unstructured{Object: objMap}, nil`). -/
inductive Returned where
  | arg : Returned
  | fresh : Unstructured → Returned

/-- The object behind a returned pointer, `obj` being the object passed in. -/
def Returned.deref (obj : Unstructured) : Returned → Unstructured
  | .arg => obj
  | .fresh o => o

/-- The loop of the two patch functions over the containers:
`if container.Name == name && config.Resources != nil { containers[j].Resources = *config.Resources }`. -/
def overrideResources (name : String) (resources : Option Value) (containers : List Container) :
    List Container :=
  containers.map (fun container =>
    match resources with
    | some r => if container.Name = name then { container with Resources := r } else container
    | none => container)

def overrideControllerParameters (conv : Converter) (crdConfig : MetalLBResource)
    (obj : Unstructured) : Except Error Returned :=
  match crdConfig.Spec.ControllerConfig with
  | none => .ok .arg
  | some controllerConfig =>
    if !isControllerDeployment obj then .ok .arg
    else
      match conv.DeploymentFromUnstructured obj.Object with
      | .error err => .error err
      | .ok controller =>
        let controller : Deployment :=
          match controllerConfig.Affinity with
          | some affinity => { controller with Affinity := some affinity }
          | none => controller
        let controller : Deployment :=
          { controller with
            Containers :=
              overrideResources "controller" controllerConfig.Resources controller.Containers }
        match conv.DeploymentToUnstructured controller with
        | .error err => .error err
        | .ok objMap => .ok (.fresh { Object := objMap })

def overrideSpeakerParameters (conv : Converter) (crdConfig : MetalLBResource)
    (obj : Unstructured) : Except Error Returned :=
  match crdConfig.Spec.SpeakerConfig with
  | none => .ok .arg
  | some speakerConfig =>
    if !isSpeakerDaemonSet obj then .ok .arg
    else
      match conv.DaemonSetFromUnstructured obj.Object with
      | .error err => .error err
      | .ok speaker =>
        let speaker : DaemonSet :=
          match speakerConfig.Affinity with
          | some affinity => { speaker with Affinity := some affinity }
          | none => speaker
        let speaker : DaemonSet :=
          { speaker with
            Containers := overrideResources "speaker" speakerConfig.Resources speaker.Containers }
        match conv.DaemonSetToUnstructured speaker with
        | .error err => .error err
        | .ok objMap => .ok (.fresh { Object := objMap })

/-- The loop of `setOcpMonitorFields` over the endpoints. The type assertion
`ep.(map[string]interface{})` panics on an endpoint that is not a map; the panic
is reported as an error. -/
def setEndpointFields : List Value → Except Error (List Value)
  | [] => .ok []
  | .map ep :: rest =>
    match setNestedFieldNoCopy ep (.bool false) ["tlsConfig", "insecureSkipVerify"] with
    | .error err => .error err
    | .ok ep1 =>
      match setEndpointFields rest with
      | .error err => .error err
      | .ok rest1 => .ok (.map ep1 :: rest1)
  | _ :: _ => .error (.other "panic: interface conversion: interface {} is not map[string]interface {}")

def setOcpMonitorFields (obj : Unstructured) : Except Error Unstructured :=
  match NestedSlice (.map obj.Object) ["spec", "endpoints"] with
  | .found eps =>
    match setEndpointFields eps with
    | .error err => .error err
    | .ok eps1 =>
      match setNestedFieldNoCopy obj.Object (.list eps1) ["spec", "endpoints"] with
      | .error err => .error err
      | .ok m => .ok { Object := m }
  | _ => .error (.other ("failed to find endpoints in ServiceMonitor " ++ obj.GetName))

/-- The type `MetalLBChart`, as far as the patching reads it. -/
structure MetalLBChart where
  config : chartConfig
  nameSpace : String

/-- The body of the loop of `GetObjects` for one rendered object. `obj` and the
slice element `objs[i]` start as the same pointer; a patch function that builds a
new object moves `objs[i]` away from it, and the writes that follow still go
through `obj`. The object returned is the one `objs[i]` points to at the end. -/
def patchRendered (h : MetalLBChart) (conv : Converter) (crdConfig : MetalLBResource)
    (obj : Unstructured) : Except Error Unstructured :=
  let objKind := obj.GetKind
  let obj := if objKind ≠ "PodSecurityPolicy" then obj.SetNamespace h.nameSpace else obj
  match overrideControllerParameters conv crdConfig obj with
  | .error err => .error err
  | .ok r1 =>
    match overrideSpeakerParameters conv crdConfig (r1.deref obj) with
    | .error err => .error err
    | .ok r2 =>
      let slot : Returned :=
        match r2 with
        | .arg => r1
        | .fresh o => .fresh o
      let patched : Except Error Unstructured :=
        if isControllerDeployment obj && h.config.isOpenShift then
          match setNestedFieldNoCopy obj.Object (.map [("runAsNonRoot", .bool true)])
              ["spec", "template", "spec", "securityContext"] with
          | .error err => .error err
          | .ok m => .ok { Object := m }
        else .ok obj
      match patched with
      | .error err => .error err
      | .ok obj =>
        let monitored : Except Error Unstructured :=
          if isServiceMonitor obj && h.config.isOpenShift then setOcpMonitorFields obj
          else .ok obj
        match monitored with
        | .error err => .error err
        | .ok obj => .ok (slot.deref obj)

/-- The method `GetObjects` from the parsed manifest on: `objs` is what
`parseManifest(release.Manifest)` returned, and the loop patches it object by
object, stopping at the first error. -/
def GetObjects (h : MetalLBChart) (conv : Converter) (crdConfig : MetalLBResource) :
    List Unstructured → Except Error (List Unstructured)
  | [] => .ok []
  | obj :: rest =>
    match patchRendered h conv crdConfig obj with
    | .error err => .error err
    | .ok o =>
      match GetObjects h conv crdConfig rest with
      | .error err => .error err
      | .ok os => .ok (o :: os)

/-! ## Concrete objects and a converter for the examples -/

/-- A container read from its untyped form: the name, the resources and the
whole map as the other fields. -/
def containerOfValue : Value → Except Error Container
  | .map m =>
    match mapGet m "name" with
    | some (.str name) =>
      .ok { Name := name, Resources := (mapGet m "resources").getD .null, Rest := m }
    | _ => .error (.other "container without a name")
  | _ => .error (.other "container is not a map")

/-- The containers of a pod template read one by one. -/
def containersOfValues : List Value → Except Error (List Container)
  | [] => .ok []
  | v :: rest =>
    match containerOfValue v with
    | .error e => .error e
    | .ok c =>
      match containersOfValues rest with
      | .error e => .error e
      | .ok cs => .ok (c :: cs)

/-- A container written back: its other fields with the resources set. -/
def valueOfContainer (c : Container) : Value :=
  .map (mapSet c.Rest "resources" c.Resources)

/-- The untyped form of a workload: kind, name and namespace, the containers,
the affinity when there is one, and the pod security context the untyped source
had. -/
def plainToUnstructured (kind name nameSpace : String) (affinity : Option Value)
    (containers : List Container) (rest : List (String × Value)) : List (String × Value) :=
  [("kind", .str kind),
    ("metadata", .map [("name", .str name), ("namespace", .str nameSpace)]),
    ("spec", .map [("template", .map [("spec", .map
      ([("containers", Value.list (containers.map valueOfContainer))] ++
        (match affinity with
          | some a => [("affinity", a)]
          | none => []) ++
        (match NestedFieldNoCopy (.map rest) ["spec", "template", "spec", "securityContext"] with
          | .found v => [("securityContext", v)]
          | _ => [])))])])]

/-- The affinity of the pod template of an untyped workload. -/
def plainAffinity (obj : List (String × Value)) : Option Value :=
  match NestedFieldNoCopy (.map obj) ["spec", "template", "spec", "affinity"] with
  | .found v => some v
  | _ => none

/-- The containers of the pod template of an untyped workload. -/
def plainContainers (obj : List (String × Value)) : Except Error (List Container) :=
  match NestedFieldNoCopy (.map obj) ["spec", "template", "spec", "containers"] with
  | .found (.list l) => containersOfValues l
  | _ => .error (.other "pod template without containers")

/-- A converter for the examples: it reads and writes the fields named above and
nothing else. -/
def plainConverter : Converter where
  DeploymentFromUnstructured := fun obj =>
    match plainContainers obj with
    | .error e => .error e
    | .ok cs =>
      .ok
        { Kind := getNestedString obj ["kind"]
          Name := getNestedString obj ["metadata", "name"]
          Namespace := getNestedString obj ["metadata", "namespace"]
          Affinity := plainAffinity obj
          Containers := cs
          Rest := obj }
  DeploymentToUnstructured := fun d =>
    .ok (plainToUnstructured d.Kind d.Name d.Namespace d.Affinity d.Containers d.Rest)
  DaemonSetFromUnstructured := fun obj =>
    match plainContainers obj with
    | .error e => .error e
    | .ok cs =>
      .ok
        { Kind := getNestedString obj ["kind"]
          Name := getNestedString obj ["metadata", "name"]
          Namespace := getNestedString obj ["metadata", "namespace"]
          Affinity := plainAffinity obj
          Containers := cs
          Rest := obj }
  DaemonSetToUnstructured := fun d =>
    .ok (plainToUnstructured d.Kind d.Name d.Namespace d.Affinity d.Containers d.Rest)

/-- The controller Deployment as the chart renders it: two containers and a pod
security context that sets a user. -/
def renderedController : Unstructured :=
  { Object :=
      [("kind", .str "Deployment"),
        ("metadata", .map [("name", .str "controller")]),
        ("spec", .map [("template", .map [("spec", .map
          [("containers", .list
              [.map [("name", .str "controller"), ("image", .str "quay.io/x/c:v1")],
                .map [("name", .str "kube-rbac-proxy"), ("image", .str "quay.io/x/p:v1")]]),
            ("securityContext", .map
              [("runAsNonRoot", .bool true), ("runAsUser", .int 65534)])])])])] }

/-- A cluster-scoped pod security policy as the chart renders it. -/
def renderedPolicy : Unstructured :=
  { Object := [("kind", .str "PodSecurityPolicy"), ("metadata", .map [("name", .str "speaker")])] }

/-- A ServiceMonitor with two endpoints, one of them with a TLS configuration. -/
def renderedMonitor : Unstructured :=
  { Object :=
      [("kind", .str "ServiceMonitor"),
        ("metadata", .map [("name", .str "speaker-monitor")]),
        ("spec", .map
          [("endpoints", .list
              [.map [("port", .str "metrics"),
                  ("tlsConfig", .map
                    [("insecureSkipVerify", .bool true), ("serverName", .str "speaker")])],
                .map [("port", .str "frrmetrics")]]),
            ("jobLabel", .str "app")])] }

/-- A ServiceMonitor without endpoints. -/
def renderedMonitorBare : Unstructured :=
  { Object :=
      [("kind", .str "ServiceMonitor"), ("metadata", .map [("name", .str "bare")]),
        ("spec", .map [("jobLabel", .str "app")])] }

/-- A resources override. -/
def resourcesOverride : Value :=
  .map [("limits", .map [("cpu", .str "200m")])]

/-- A custom resource with a resources override for the controller. -/
def crControllerResources : MetalLBResource :=
  { Spec :=
      { LogLevel := "", SpeakerNodeSelector := none, SpeakerTolerations := none
        ControllerConfig := some { Affinity := none, Resources := some resourcesOverride }
        SpeakerConfig := none } }

/-- The chart on OpenShift in the namespace `metallb-system`. -/
def chartOpenShift : MetalLBChart :=
  { config := cfgFrr, nameSpace := "metallb-system" }

/-- The typed form of `renderedController` under `plainConverter`. -/
def controllerTyped : Deployment :=
  { Kind := "Deployment"
    Name := "controller"
    Namespace := ""
    Affinity := none
    Containers :=
      [{ Name := "controller", Resources := .null
         Rest := [("name", .str "controller"), ("image", .str "quay.io/x/c:v1")] },
        { Name := "kube-rbac-proxy", Resources := .null
          Rest := [("name", .str "kube-rbac-proxy"), ("image", .str "quay.io/x/p:v1")] }]
    Rest := renderedController.Object }

/-! ## Reading the effect of the monitor patch -/

/-- The endpoint `ep1` is the endpoint `ep` with `tlsConfig.insecureSkipVerify`
set to false: every other field of the endpoint and every other field of its
`tlsConfig` reads as before. -/
def EndpointPatched (ep ep1 : Value) : Prop :=
  NestedFieldNoCopy ep1 ["tlsConfig", "insecureSkipVerify"] = .found (.bool false) ∧
  (∀ k : String, k ≠ "tlsConfig" → NestedFieldNoCopy ep1 [k] = NestedFieldNoCopy ep [k]) ∧
  (∀ k : String, k ≠ "insecureSkipVerify" →
    NestedFieldNoCopy ep1 ["tlsConfig", k] = NestedFieldNoCopy ep ["tlsConfig", k])

/-- The Deployment `GetObjects` returns for `renderedController` on OpenShift
under `crControllerResources` and `plainConverter`. -/
def controllerReturned : Unstructured :=
  { Object :=
      [("kind", .str "Deployment"),
        ("metadata", .map [("name", .str "controller"), ("namespace", .str "metallb-system")]),
        ("spec", .map [("template", .map [("spec", .map
          [("containers", .list
              [.map [("name", .str "controller"), ("image", .str "quay.io/x/c:v1"),
                  ("resources", resourcesOverride)],
                .map [("name", .str "kube-rbac-proxy"), ("image", .str "quay.io/x/p:v1"),
                  ("resources", .null)]]),
            ("securityContext", .map
              [("runAsNonRoot", .bool true), ("runAsUser", .int 65534)])])])])] }

/-- A serializer for the examples that follows the order of the snapshot: every
pool as `name=spec;`. -/
def serializePools (config : OperatorConfig) : Except Error String :=
  .ok (String.join (config.Pools.map (fun p => p.Name ++ "=" ++ p.Spec ++ ";")))

/-- The store of `storeTwoNamespaces` with the custom resource present. -/
def storeSameName : Store :=
  { storeTwoNamespaces with MetalLBs := [metalLBInstance] }

/-- The artifact the first call creates on `storeSameName`. -/
def createdSameName : ConfigMap :=
  { Name := "config"
    Namespace := "metallb-system"
    OwnerReferences :=
      [{ APIVersion := "metallb.io/v1beta1", Kind := "MetalLB", Name := "metallb", UID := "uid-1"
         Controller := true, BlockOwnerDeletion := true }]
    Data := [("config", "pool=192.168.1.0/24;pool=10.0.0.0/8;")] }

/-- The store after the first call on `storeSameName`. -/
def storeSameNameCreated : Store :=
  { storeSameName with ConfigMaps := [createdSameName] }

/-- The store after the first call, listing its two address pools in the other
order at the second call. -/
def storeSameNameRelisted : Store :=
  { storeSameNameCreated with
    AddressPools := [⟨"pool", "ns-b", "10.0.0.0/8"⟩, ⟨"pool", "ns-a", "192.168.1.0/24"⟩] }

/-! ## Properties of the sort -/

theorem stringLess_iff (a b : String) : stringLess a b = true ↔ a < b := by
  simp [stringLess, String.lt_iff_toList_lt]

theorem insertLeft_perm {α : Type} (less : α → α → Bool) (x : α) (l : List α) :
    (insertLeft less x l).Perm (x :: l) := by
  induction l with
  | nil => exact List.Perm.refl _
  | cons y ys ih =>
    unfold insertLeft
    split
    · exact (List.Perm.cons y ih).trans (List.Perm.swap x y ys)
    · exact List.Perm.refl _

theorem insertionSortFrom_perm {α : Type} (less : α → α → Bool) (l acc : List α) :
    (insertionSortFrom less acc l).Perm (acc ++ l) := by
  induction l generalizing acc with
  | nil => simp [insertionSortFrom]
  | cons x xs ih =>
    unfold insertionSortFrom
    refine (ih (insertLeft less x acc)).trans ?_
    refine ((insertLeft_perm less x acc).append_right xs).trans ?_
    simpa using (@List.perm_middle _ x acc xs).symm

theorem sortSlice_perm {α : Type} (less : α → α → Bool) (l : List α) :
    (sortSlice less l).Perm l := by
  simpa [sortSlice] using insertionSortFrom_perm less l []

theorem insertLeft_descending {α : Type} (key : α → String) (x : α) (acc : List α)
    (h : acc.Pairwise (fun a b => key b ≤ key a)) :
    (insertLeft (fun a b => stringLess (key a) (key b)) x acc).Pairwise
      (fun a b => key b ≤ key a) := by
  induction acc with
  | nil => simp [insertLeft]
  | cons y ys ih =>
    have hy : ∀ z ∈ ys, key z ≤ key y := fun z hz => List.rel_of_pairwise_cons h hz
    have hys := List.Pairwise.of_cons h
    unfold insertLeft
    by_cases hxy : key x < key y
    · simp only [(stringLess_iff _ _).mpr hxy, if_true]
      refine List.Pairwise.cons ?_ (ih hys)
      intro z hz
      rcases List.mem_cons.mp ((insertLeft_perm _ x ys).mem_iff.mp hz) with rfl | hz
      · exact le_of_lt hxy
      · exact hy z hz
    · have hfalse : stringLess (key x) (key y) = false := by
        cases hb : stringLess (key x) (key y)
        · rfl
        · exact absurd ((stringLess_iff _ _).mp hb) hxy
      simp only [hfalse]
      refine List.Pairwise.cons ?_ h
      intro z hz
      rcases List.mem_cons.mp hz with rfl | hz
      · exact not_lt.mp hxy
      · exact le_trans (hy z hz) (not_lt.mp hxy)

theorem insertionSortFrom_sorted {α : Type} (key : α → String) (l acc : List α)
    (h : acc.Pairwise (fun a b => key b ≤ key a)) :
    (insertionSortFrom (fun a b => stringLess (key a) (key b)) acc l).Pairwise
      (fun a b => key a ≤ key b) := by
  induction l generalizing acc with
  | nil => simpa [insertionSortFrom, List.pairwise_reverse] using h
  | cons x xs ih =>
    unfold insertionSortFrom
    exact ih _ (insertLeft_descending key x acc h)

theorem sortSlice_sorted {α : Type} (key : α → String) (l : List α) :
    (sortSlice (fun a b => stringLess (key a) (key b)) l).Pairwise
      (fun a b => key a ≤ key b) :=
  insertionSortFrom_sorted key l [] List.Pairwise.nil

theorem eq_of_perm_of_map_eq {α : Type} (key : α → String) (l₁ l₂ : List α)
    (hp : l₁.Perm l₂) (hk : l₁.map key = l₂.map key) (hnd : (l₁.map key).Nodup) : l₁ = l₂ := by
  induction l₁ generalizing l₂ with
  | nil => exact (List.Perm.nil_eq hp)
  | cons a t ih =>
    cases l₂ with
    | nil => cases hk
    | cons b u =>
      simp only [List.map_cons, List.cons.injEq] at hk
      obtain ⟨hab, htu⟩ := hk
      simp only [List.map_cons, List.nodup_cons] at hnd
      have hb : b ∈ a :: t := hp.mem_iff.mpr (List.mem_cons_self b u)
      have heq : a = b := by
        rcases List.mem_cons.mp hb with h | h
        · exact h.symm
        · exact absurd (hab ▸ List.mem_map_of_mem key h) hnd.1
      subst heq
      rw [ih u (List.Perm.cons_inv hp) htu hnd.2]

/-- Two listings of the same items with pairwise distinct names sort to the same
sequence. -/
theorem sortSlice_eq_of_perm {α : Type} (key : α → String) (l₁ l₂ : List α)
    (hp : l₁.Perm l₂) (hnd : (l₁.map key).Nodup) :
    sortSlice (fun a b => stringLess (key a) (key b)) l₁ =
      sortSlice (fun a b => stringLess (key a) (key b)) l₂ := by
  have p1 := sortSlice_perm (fun a b => stringLess (key a) (key b)) l₁
  have p2 := sortSlice_perm (fun a b => stringLess (key a) (key b)) l₂
  have hperm := p1.trans (hp.trans p2.symm)
  have s1 := sortSlice_sorted key l₁
  have s2 := sortSlice_sorted key l₂
  have hk : (sortSlice (fun a b => stringLess (key a) (key b)) l₁).map key =
      (sortSlice (fun a b => stringLess (key a) (key b)) l₂).map key := by
    haveI : IsAntisymm String (fun x y => x ≤ y) := ⟨fun _ _ h h2 => le_antisymm h h2⟩
    exact List.eq_of_perm_of_sorted (hperm.map key) (List.pairwise_map.mpr s1)
      (List.pairwise_map.mpr s2)
  exact eq_of_perm_of_map_eq key _ _ hperm hk (((p1.map key).nodup_iff).mpr hnd)

/-! ## Properties of operatorConfig -/

theorem listOrAbort_of_failsHard {α : Type} (msg : String) (r : Except Error (List α))
    (h : failsHard r = true) : ∃ e, listOrAbort msg r = .error e := by
  cases r with
  | ok l => simp [failsHard] at h
  | error e =>
    simp only [failsHard, Bool.not_eq_true'] at h
    exact ⟨.wrap msg e, by simp [listOrAbort, h]⟩

theorem listOrAbort_of_not_failsHard {α : Type} (msg : String) (r : Except Error (List α))
    (h : failsHard r = false) : listOrAbort msg r = .ok (listed r) := by
  cases r with
  | ok l => rfl
  | error e =>
    simp only [failsHard, Bool.not_eq_false'] at h
    simp [listOrAbort, h, listed]

/-- The snapshot `operatorConfig` returns when no `List` call fails hard. -/
theorem operatorConfig_of_lists_ok {σ : Type} (c : Client σ) (s : σ)
    (h1 : failsHard (c.ListAddressPools s) = false)
    (h2 : failsHard (c.ListBGPPeers s) = false)
    (h3 : failsHard (c.ListBFDProfiles s) = false) :
    operatorConfig c s = .ok
      { NameSpace := ""
        ConfigMapName := ""
        DataField := ConfigDataField
        Pools := sortSlice (fun i j => stringLess i.Name j.Name) (listed (c.ListAddressPools s))
        Peers := sortSlice (fun i j => stringLess i.Name j.Name) (listed (c.ListBGPPeers s))
        BFDProfiles :=
          sortSlice (fun i j => stringLess i.Name j.Name) (listed (c.ListBFDProfiles s)) } := by
  unfold operatorConfig
  rw [listOrAbort_of_not_failsHard _ _ h1, listOrAbort_of_not_failsHard _ _ h2,
    listOrAbort_of_not_failsHard _ _ h3]
  rfl

/-- The call `operatorConfig` fails as soon as one `List` call fails hard. -/
theorem operatorConfig_of_list_fails {σ : Type} (c : Client σ) (s : σ)
    (h : failsHard (c.ListAddressPools s) = true ∨ failsHard (c.ListBGPPeers s) = true ∨
      failsHard (c.ListBFDProfiles s) = true) :
    ∃ e, operatorConfig c s = .error e := by
  unfold operatorConfig
  cases h1 : failsHard (c.ListAddressPools s)
  · rw [listOrAbort_of_not_failsHard _ _ h1]
    cases h2 : failsHard (c.ListBGPPeers s)
    · rw [listOrAbort_of_not_failsHard _ _ h2]
      cases h3 : failsHard (c.ListBFDProfiles s)
      · simp [h1, h2, h3] at h
      · obtain ⟨e, he⟩ := listOrAbort_of_failsHard "failed to fetch bfd profiles" _ h3
        exact ⟨e, by rw [he]; rfl⟩
    · obtain ⟨e, he⟩ := listOrAbort_of_failsHard "failed to fetch bgp peers" _ h2
      exact ⟨e, by rw [he]; rfl⟩
  · obtain ⟨e, he⟩ := listOrAbort_of_failsHard "failed to fetch address pools" _ h1
    exact ⟨e, by rw [he]; rfl⟩

theorem failsHard_iff {α : Type} (r : Except Error α) :
    failsHard r = true ↔ ∃ e, r = .error e ∧ IsNotFound e = false := by
  cases r with
  | ok a => simp [failsHard]
  | error e => simp [failsHard]

theorem operatorConfig_storeUnordered :
    operatorConfig storeClient storeUnordered = .ok snapshotUnordered := by
  rfl

/-- C8: whenever `operatorConfig` succeeds, each of `Pools`, `Peers` and
`BFDProfiles` of the snapshot is a permutation of the items the store listed for
that collection and is sorted by `Name` in ascending order. -/
theorem operatorConfig_sorted_perm {σ : Type} (c : Client σ) (s : σ) (config : OperatorConfig)
    (h : operatorConfig c s = .ok config) :
    (config.Pools.Perm (listed (c.ListAddressPools s)) ∧
      config.Pools.Sorted (fun a b => a.Name ≤ b.Name)) ∧
    (config.Peers.Perm (listed (c.ListBGPPeers s)) ∧
      config.Peers.Sorted (fun a b => a.Name ≤ b.Name)) ∧
    (config.BFDProfiles.Perm (listed (c.ListBFDProfiles s)) ∧
      config.BFDProfiles.Sorted (fun a b => a.Name ≤ b.Name)) := by
  cases h1 : failsHard (c.ListAddressPools s) with
  | true =>
    obtain ⟨e, he⟩ := operatorConfig_of_list_fails c s (Or.inl h1)
    rw [he] at h
    cases h
  | false =>
    cases h2 : failsHard (c.ListBGPPeers s) with
    | true =>
      obtain ⟨e, he⟩ := operatorConfig_of_list_fails c s (Or.inr (Or.inl h2))
      rw [he] at h
      cases h
    | false =>
      cases h3 : failsHard (c.ListBFDProfiles s) with
      | true =>
        obtain ⟨e, he⟩ := operatorConfig_of_list_fails c s (Or.inr (Or.inr h3))
        rw [he] at h
        cases h
      | false =>
        rw [operatorConfig_of_lists_ok c s h1 h2 h3] at h
        injection h with h
        subst h
        exact ⟨⟨sortSlice_perm _ _, sortSlice_sorted (fun a : AddressPool => a.Name) _⟩,
          ⟨sortSlice_perm _ _, sortSlice_sorted (fun a : BGPPeer => a.Name) _⟩,
          ⟨sortSlice_perm _ _, sortSlice_sorted (fun a : BFDProfile => a.Name) _⟩⟩

/-- Witness of C8 on a store listing three pools and two peers out of order. -/
theorem operatorConfig_sorted_perm_witness :
    operatorConfig storeClient storeUnordered = .ok snapshotUnordered ∧
    ((snapshotUnordered.Pools.Perm (listed (storeClient.ListAddressPools storeUnordered)) ∧
      snapshotUnordered.Pools.Sorted (fun a b => a.Name ≤ b.Name)) ∧
    (snapshotUnordered.Peers.Perm (listed (storeClient.ListBGPPeers storeUnordered)) ∧
      snapshotUnordered.Peers.Sorted (fun a b => a.Name ≤ b.Name)) ∧
    (snapshotUnordered.BFDProfiles.Perm (listed (storeClient.ListBFDProfiles storeUnordered)) ∧
      snapshotUnordered.BFDProfiles.Sorted (fun a b => a.Name ≤ b.Name))) :=
  ⟨operatorConfig_storeUnordered,
    operatorConfig_sorted_perm storeClient storeUnordered snapshotUnordered
      operatorConfig_storeUnordered⟩

/-- C9: `operatorConfig` returns an error exactly when one of the three `List`
calls fails with an error other than not-found; and in a snapshot it returns, a
collection whose `List` call answered not-found is empty. -/
theorem operatorConfig_error_iff {σ : Type} (c : Client σ) (s : σ) :
    ((∃ err, operatorConfig c s = .error err) ↔
      ∃ e, IsNotFound e = false ∧ (c.ListAddressPools s = .error e ∨
        c.ListBGPPeers s = .error e ∨ c.ListBFDProfiles s = .error e)) ∧
    (∀ config, operatorConfig c s = .ok config →
      ((∃ e, c.ListAddressPools s = .error e ∧ IsNotFound e = true) → config.Pools = []) ∧
      ((∃ e, c.ListBGPPeers s = .error e ∧ IsNotFound e = true) → config.Peers = []) ∧
      ((∃ e, c.ListBFDProfiles s = .error e ∧ IsNotFound e = true) →
        config.BFDProfiles = [])) := by
  have hard : (∃ e, IsNotFound e = false ∧ (c.ListAddressPools s = .error e ∨
        c.ListBGPPeers s = .error e ∨ c.ListBFDProfiles s = .error e)) ↔
      (failsHard (c.ListAddressPools s) = true ∨ failsHard (c.ListBGPPeers s) = true ∨
        failsHard (c.ListBFDProfiles s) = true) := by
    simp only [failsHard_iff]
    constructor
    · rintro ⟨e, he, h | h | h⟩
      · exact Or.inl ⟨e, h, he⟩
      · exact Or.inr (Or.inl ⟨e, h, he⟩)
      · exact Or.inr (Or.inr ⟨e, h, he⟩)
    · rintro (⟨e, h, he⟩ | ⟨e, h, he⟩ | ⟨e, h, he⟩)
      · exact ⟨e, he, Or.inl h⟩
      · exact ⟨e, he, Or.inr (Or.inl h)⟩
      · exact ⟨e, he, Or.inr (Or.inr h)⟩
  by_cases hf : failsHard (c.ListAddressPools s) = true ∨ failsHard (c.ListBGPPeers s) = true ∨
      failsHard (c.ListBFDProfiles s) = true
  · obtain ⟨e, he⟩ := operatorConfig_of_list_fails c s hf
    refine ⟨⟨fun _ => hard.mpr hf, fun _ => ⟨e, he⟩⟩, ?_⟩
    intro config hc
    rw [he] at hc
    cases hc
  · have h1 : failsHard (c.ListAddressPools s) = false := by
      cases h : failsHard (c.ListAddressPools s) <;> simp_all
    have h2 : failsHard (c.ListBGPPeers s) = false := by
      cases h : failsHard (c.ListBGPPeers s) <;> simp_all
    have h3 : failsHard (c.ListBFDProfiles s) = false := by
      cases h : failsHard (c.ListBFDProfiles s) <;> simp_all
    have hok := operatorConfig_of_lists_ok c s h1 h2 h3
    refine ⟨⟨?_, fun h => absurd (hard.mp h) hf⟩, ?_⟩
    · rintro ⟨err, herr⟩
      rw [hok] at herr
      cases herr
    · intro config hc
      rw [hok] at hc
      injection hc with hc
      subst hc
      refine ⟨?_, ?_, ?_⟩
      · rintro ⟨e, he, -⟩
        simp [he, listed, sortSlice, insertionSortFrom]
      · rintro ⟨e, he, -⟩
        simp [he, listed, sortSlice, insertionSortFrom]
      · rintro ⟨e, he, -⟩
        simp [he, listed, sortSlice, insertionSortFrom]

/-- Witness of C9: the address pool listing answers not-found, the snapshot is
returned and holds no pool. -/
theorem operatorConfig_error_iff_witness :
    operatorConfig poolsNotFoundClient storeUnordered =
      .ok { snapshotUnordered with Pools := [] } ∧
    ({ snapshotUnordered with Pools := [] } : OperatorConfig).Pools = [] :=
  ⟨rfl, ((operatorConfig_error_iff poolsNotFoundClient storeUnordered).2
    { snapshotUnordered with Pools := [] } rfl).1 ⟨.notFound "addresspools", rfl, rfl⟩⟩

/-- On the in-memory store, two listings of the same collections give the same
snapshot when the names within each collection are pairwise distinct. -/
theorem operatorConfig_eq_of_perm_of_distinct_names (s t : Store)
    (h1 : s.AddressPools.Perm t.AddressPools) (h2 : s.BGPPeers.Perm t.BGPPeers)
    (h3 : s.BFDProfiles.Perm t.BFDProfiles)
    (d1 : (s.AddressPools.map (fun a => a.Name)).Nodup)
    (d2 : (s.BGPPeers.map (fun a => a.Name)).Nodup)
    (d3 : (s.BFDProfiles.map (fun a => a.Name)).Nodup) :
    operatorConfig storeClient s = operatorConfig storeClient t := by
  have e : ∀ u : Store, operatorConfig storeClient u = .ok
      { NameSpace := ""
        ConfigMapName := ""
        DataField := ConfigDataField
        Pools := sortSlice (fun i j => stringLess i.Name j.Name) u.AddressPools
        Peers := sortSlice (fun i j => stringLess i.Name j.Name) u.BGPPeers
        BFDProfiles := sortSlice (fun i j => stringLess i.Name j.Name) u.BFDProfiles } :=
    fun _ => rfl
  rw [e s, e t, sortSlice_eq_of_perm (fun a : AddressPool => a.Name) _ _ h1 d1,
    sortSlice_eq_of_perm (fun a : BGPPeer => a.Name) _ _ h2 d2,
    sortSlice_eq_of_perm (fun a : BFDProfile => a.Name) _ _ h3 d3]

/-- C7, evaluated on two address pools that share a name: the in-memory store
lists the same two pools in either order, and the snapshot follows the listing
order, so the two snapshots differ. -/
theorem operatorConfig_follows_listing_order :
    storeTwoNamespaces.AddressPools.Perm storeTwoNamespacesSwapped.AddressPools ∧
    (operatorConfig storeClient storeTwoNamespaces).map (fun r => r.Pools) =
      .ok [⟨"pool", "ns-a", "192.168.1.0/24"⟩, ⟨"pool", "ns-b", "10.0.0.0/8"⟩] ∧
    (operatorConfig storeClient storeTwoNamespacesSwapped).map (fun r => r.Pools) =
      .ok [⟨"pool", "ns-b", "10.0.0.0/8"⟩, ⟨"pool", "ns-a", "192.168.1.0/24"⟩] ∧
    operatorConfig storeClient storeTwoNamespaces ≠
      operatorConfig storeClient storeTwoNamespacesSwapped := by
  refine ⟨List.Perm.swap _ _ _, rfl, rfl, ?_⟩
  intro h
  have h2 := congrArg (fun r => Except.map (fun r => r.Pools) r) h
  have e1 : (operatorConfig storeClient storeTwoNamespaces).map (fun r => r.Pools) =
      .ok [⟨"pool", "ns-a", "192.168.1.0/24"⟩, ⟨"pool", "ns-b", "10.0.0.0/8"⟩] := rfl
  have e2 : (operatorConfig storeClient storeTwoNamespacesSwapped).map (fun r => r.Pools) =
      .ok [⟨"pool", "ns-b", "10.0.0.0/8"⟩, ⟨"pool", "ns-a", "192.168.1.0/24"⟩] := rfl
  simp only [e1, e2] at h2
  injection h2 with h2
  revert h2
  decide

theorem splitFrom_no_sep (sep : Char) (cur l : List Char) (h : sep ∉ l) :
    splitFrom sep cur l = [cur.reverse ++ l] := by
  induction l generalizing cur with
  | nil => simp [splitFrom]
  | cons ch rest ih =>
    have hne : ch ≠ sep := fun e => h (e ▸ List.mem_cons_self ch rest)
    have hrest : sep ∉ rest := fun m => h (List.mem_cons_of_mem ch m)
    simp [splitFrom, hne, ih (ch :: cur) hrest]

theorem splitFrom_first_sep (sep : Char) (cur l r : List Char) (h : sep ∉ l) :
    splitFrom sep cur (l ++ sep :: r) = (cur.reverse ++ l) :: splitFrom sep [] r := by
  induction l generalizing cur with
  | nil => simp [splitFrom]
  | cons ch rest ih =>
    have hne : ch ≠ sep := fun e => h (e ▸ List.mem_cons_self ch rest)
    have hrest : sep ∉ rest := fun m => h (List.mem_cons_of_mem ch m)
    simp [splitFrom, hne, ih (ch :: cur) hrest]

/-- A value without a colon is the repository, with an empty tag. -/
theorem getImageNameTag_no_colon (v : String) (h : ':' ∉ v.data) :
    getImageNameTag v = (v, "") := by
  simp [getImageNameTag, Split, splitFrom_no_sep ':' [] v.data h]

/-- A value with exactly one colon splits into the text before and after it. -/
theorem getImageNameTag_one_colon (a b : String) (ha : ':' ∉ a.data) (hb : ':' ∉ b.data) :
    getImageNameTag (a ++ ":" ++ b) = (a, b) := by
  have hd : (a ++ ":" ++ b).data = a.data ++ ':' :: b.data := by
    simp [String.data_append]
  simp [getImageNameTag, Split, hd, splitFrom_first_sep ':' [] a.data b.data ha,
    splitFrom_no_sep ':' [] b.data hb]

/-- C10, evaluated on an image reference with a registry port: the tag returned
is the text between the first and the second colon, and the rest is dropped. -/
theorem getImageNameTag_registry_port :
    getImageNameTag "localhost:5000/controller:v1" = ("localhost", "5000/controller") ∧
    (getImageNameTag "localhost:5000/controller:v1").1 ++ ":" ++
      (getImageNameTag "localhost:5000/controller:v1").2 ≠ "localhost:5000/controller:v1" := by
  decide

/-! ## Properties of reconcileConfigMap -/

/-- The outcome of `reconcileConfigMap` when the snapshot was collected and
rendered and the `Get` of the config artifact returned it. -/
theorem reconcileConfigMap_of_present {σ : Type} (c : Client σ)
    (render : OperatorConfig → Except Error ConfigMap)
    (crName nameSpace : String) (scheme : Scheme) (s : σ)
    (config : OperatorConfig) (rendered existing : ConfigMap)
    (hcfg : operatorConfig c s = .ok config)
    (hrender : render { config with NameSpace := nameSpace, ConfigMapName := ConfigMapName } =
      .ok rendered)
    (hget : c.GetConfigMap s nameSpace ConfigMapName = .ok existing) :
    reconcileConfigMap c render crName nameSpace scheme s =
      if dataAt existing.Data ConfigDataField = dataAt rendered.Data ConfigDataField then
        { result := .ok (), writes := [], store := s }
      else
        { result :=
            match (c.Update s { rendered with OwnerReferences := existing.OwnerReferences }).1 with
            | some e => .error (.wrap "failed to update configmap" e)
            | none => .ok ()
          writes := [Write.update { rendered with OwnerReferences := existing.OwnerReferences }]
          store :=
            (c.Update s { rendered with OwnerReferences := existing.OwnerReferences }).2 } := by
  unfold reconcileConfigMap
  simp only [hcfg, hrender, hget, getInto, isNotFoundErr]
  rfl

/-- The outcome of `reconcileConfigMap` when the snapshot was collected and
rendered and the `Get` of the config artifact answered not-found. -/
theorem reconcileConfigMap_of_absent {σ : Type} (c : Client σ)
    (render : OperatorConfig → Except Error ConfigMap)
    (crName nameSpace : String) (scheme : Scheme) (s : σ)
    (config : OperatorConfig) (rendered : ConfigMap) (e : Error)
    (hcfg : operatorConfig c s = .ok config)
    (hrender : render { config with NameSpace := nameSpace, ConfigMapName := ConfigMapName } =
      .ok rendered)
    (hget : c.GetConfigMap s nameSpace ConfigMapName = .error e) (he : IsNotFound e = true) :
    reconcileConfigMap c render crName nameSpace scheme s =
      if (getInto MetalLB.zero (c.GetMetalLB s nameSpace crName)).2.isSome &&
          isNotFoundErr (getInto MetalLB.zero (c.GetMetalLB s nameSpace crName)).2 then
        { result := .ok (), writes := [], store := s }
      else
        match SetControllerReference
            (getInto MetalLB.zero (c.GetMetalLB s nameSpace crName)).1 rendered scheme with
        | .error err =>
          { result := .error (.wrap "Failed to set controller reference" err)
            writes := []
            store := s }
        | .ok obj =>
          { result :=
              match (c.Create s obj).1 with
              | some e => .error e
              | none => .ok ()
            writes := [Write.create obj]
            store := (c.Create s obj).2 } := by
  unfold reconcileConfigMap
  simp only [hcfg, hrender, hget, getInto, isNotFoundErr, he, if_true]

theorem upsertOwnerRef_mem (ref : OwnerReference) (refs : List OwnerReference) :
    ref ∈ upsertOwnerRef ref refs := by
  induction refs with
  | nil => simp [upsertOwnerRef]
  | cons r rs ih =>
    unfold upsertOwnerRef
    split
    · exact List.mem_cons_self _ _
    · exact List.mem_cons_of_mem _ ih

/-- When it succeeds, `SetControllerReference` changes the owner references only. -/
theorem SetControllerReference_frame (owner : MetalLB) (controlled obj : ConfigMap)
    (scheme : Scheme) (h : SetControllerReference owner controlled scheme = .ok obj) :
    obj.Name = controlled.Name ∧ obj.Namespace = controlled.Namespace ∧
      obj.Data = controlled.Data := by
  unfold SetControllerReference at h
  split at h
  · cases h
  · split at h
    · cases h
    · split at h
      · simp only at h
        split at h
        · cases h
        · injection h with h
          subst h
          exact ⟨rfl, rfl, rfl⟩
      · injection h with h
        subst h
        exact ⟨rfl, rfl, rfl⟩

/-- Sufficient conditions for `SetControllerReference` to succeed: owner and
dependent in the same namespace, the owner type registered in the scheme, and no
controller reference on the dependent yet. -/
theorem SetControllerReference_ok (owner : MetalLB)
    (controlled : ConfigMap) (scheme : Scheme) (gvk : GroupVersionKind)
    (hns : owner.Namespace = controlled.Namespace) (hscheme : scheme.MetalLB = some gvk)
    (hctl : GetControllerOf controlled.OwnerReferences = none) :
    SetControllerReference owner controlled scheme =
      .ok { controlled with
            OwnerReferences :=
              upsertOwnerRef (controllerRef gvk owner) controlled.OwnerReferences } := by
  have hv : validateOwner owner controlled = .ok () := by
    unfold validateOwner
    by_cases h : owner.Namespace = ""
    · simp [h]
    · have h2 : ¬ controlled.Namespace = "" := by rw [← hns]; exact h
      simp [h, h2, hns]
  unfold SetControllerReference
  simp only [hv, hscheme, hctl]

/-- C1: when the config artifact exists and its data under the key `config`
differs from the freshly rendered data, `reconcileConfigMap` issues one `Update`
whose object is the rendered artifact carrying exactly the owner references of
the existing artifact, whatever owner references the rendered artifact had. -/
theorem reconcileConfigMap_update_keeps_owners {σ : Type} (c : Client σ)
    (render : OperatorConfig → Except Error ConfigMap)
    (crName nameSpace : String) (scheme : Scheme) (s : σ)
    (config : OperatorConfig) (rendered existing : ConfigMap)
    (hcfg : operatorConfig c s = .ok config)
    (hrender : render { config with NameSpace := nameSpace, ConfigMapName := ConfigMapName } =
      .ok rendered)
    (hget : c.GetConfigMap s nameSpace ConfigMapName = .ok existing)
    (hdiff : dataAt existing.Data ConfigDataField ≠ dataAt rendered.Data ConfigDataField) :
    ∃ obj, (reconcileConfigMap c render crName nameSpace scheme s).writes = [Write.update obj] ∧
      obj.OwnerReferences = existing.OwnerReferences ∧
      obj = { rendered with OwnerReferences := existing.OwnerReferences } := by
  refine ⟨{ rendered with OwnerReferences := existing.OwnerReferences }, ?_, rfl, rfl⟩
  rw [reconcileConfigMap_of_present c render crName nameSpace scheme s config rendered existing
    hcfg hrender hget, if_neg hdiff]

/-- Witness of C1: the stale artifact keeps its earlier owner although the
rendered artifact has no owner reference. -/
theorem reconcileConfigMap_update_keeps_owners_witness :
    ∃ obj, (reconcileConfigMap storeClient (OperatorConfigToMetalLB serializePoolNames)
        "metallb" "metallb-system" schemeWithMetalLB storeStale).writes = [Write.update obj] ∧
      obj.OwnerReferences = staleArtifact.OwnerReferences ∧
      obj = { renderedGold with OwnerReferences := staleArtifact.OwnerReferences } :=
  reconcileConfigMap_update_keeps_owners storeClient (OperatorConfigToMetalLB serializePoolNames)
    "metallb" "metallb-system" schemeWithMetalLB storeStale snapshotGold renderedGold
    staleArtifact rfl rfl rfl (by decide)

/-- C3: when the config artifact is present, `reconcileConfigMap` writes to the
store if and only if the existing data under the key `config` differs from the
rendered data; with identical data it returns success without a write and leaves
the store as it was, and with different data its single write is an `Update`. -/
theorem reconcileConfigMap_writes_iff_changed {σ : Type} (c : Client σ)
    (render : OperatorConfig → Except Error ConfigMap)
    (crName nameSpace : String) (scheme : Scheme) (s : σ)
    (config : OperatorConfig) (rendered existing : ConfigMap)
    (hcfg : operatorConfig c s = .ok config)
    (hrender : render { config with NameSpace := nameSpace, ConfigMapName := ConfigMapName } =
      .ok rendered)
    (hget : c.GetConfigMap s nameSpace ConfigMapName = .ok existing) :
    ((reconcileConfigMap c render crName nameSpace scheme s).writes ≠ [] ↔
      dataAt existing.Data ConfigDataField ≠ dataAt rendered.Data ConfigDataField) ∧
    (dataAt existing.Data ConfigDataField = dataAt rendered.Data ConfigDataField →
      (reconcileConfigMap c render crName nameSpace scheme s).result = .ok () ∧
      (reconcileConfigMap c render crName nameSpace scheme s).writes = [] ∧
      (reconcileConfigMap c render crName nameSpace scheme s).store = s) ∧
    (dataAt existing.Data ConfigDataField ≠ dataAt rendered.Data ConfigDataField →
      ∃ obj, (reconcileConfigMap c render crName nameSpace scheme s).writes =
        [Write.update obj]) := by
  have h := reconcileConfigMap_of_present c render crName nameSpace scheme s config rendered
    existing hcfg hrender hget
  by_cases hd : dataAt existing.Data ConfigDataField = dataAt rendered.Data ConfigDataField
  · rw [if_pos hd] at h
    rw [h]
    exact ⟨⟨fun hw => absurd rfl hw, fun hne => absurd hd hne⟩, fun _ => ⟨rfl, rfl, rfl⟩,
      fun hne => absurd hd hne⟩
  · rw [if_neg hd] at h
    rw [h]
    exact ⟨⟨fun _ => hd, fun _ => by simp⟩, fun he => absurd he hd, fun _ => ⟨_, rfl⟩⟩

/-- Witness of C3 on the store whose artifact is out of date. -/
theorem reconcileConfigMap_writes_iff_changed_witness :
    ((reconcileConfigMap storeClient (OperatorConfigToMetalLB serializePoolNames)
        "metallb" "metallb-system" schemeWithMetalLB storeStale).writes ≠ [] ↔
      dataAt staleArtifact.Data ConfigDataField ≠ dataAt renderedGold.Data ConfigDataField) ∧
    (dataAt staleArtifact.Data ConfigDataField = dataAt renderedGold.Data ConfigDataField →
      (reconcileConfigMap storeClient (OperatorConfigToMetalLB serializePoolNames)
        "metallb" "metallb-system" schemeWithMetalLB storeStale).result = .ok () ∧
      (reconcileConfigMap storeClient (OperatorConfigToMetalLB serializePoolNames)
        "metallb" "metallb-system" schemeWithMetalLB storeStale).writes = [] ∧
      (reconcileConfigMap storeClient (OperatorConfigToMetalLB serializePoolNames)
        "metallb" "metallb-system" schemeWithMetalLB storeStale).store = storeStale) ∧
    (dataAt staleArtifact.Data ConfigDataField ≠ dataAt renderedGold.Data ConfigDataField →
      ∃ obj, (reconcileConfigMap storeClient (OperatorConfigToMetalLB serializePoolNames)
        "metallb" "metallb-system" schemeWithMetalLB storeStale).writes = [Write.update obj]) :=
  reconcileConfigMap_writes_iff_changed storeClient (OperatorConfigToMetalLB serializePoolNames)
    "metallb" "metallb-system" schemeWithMetalLB storeStale snapshotGold renderedGold
    staleArtifact rfl rfl rfl

/-- C5: when the `Get` of the config artifact and the `Get` of the owning
custom resource both answer not-found, `reconcileConfigMap` returns success,
issues no write and leaves the store as it was. -/
theorem reconcileConfigMap_no_owner_noop {σ : Type} (c : Client σ)
    (render : OperatorConfig → Except Error ConfigMap)
    (crName nameSpace : String) (scheme : Scheme) (s : σ)
    (config : OperatorConfig) (rendered : ConfigMap) (e1 e2 : Error)
    (hcfg : operatorConfig c s = .ok config)
    (hrender : render { config with NameSpace := nameSpace, ConfigMapName := ConfigMapName } =
      .ok rendered)
    (hget : c.GetConfigMap s nameSpace ConfigMapName = .error e1) (he1 : IsNotFound e1 = true)
    (hcr : c.GetMetalLB s nameSpace crName = .error e2) (he2 : IsNotFound e2 = true) :
    (reconcileConfigMap c render crName nameSpace scheme s).result = .ok () ∧
    (reconcileConfigMap c render crName nameSpace scheme s).writes = [] ∧
    (reconcileConfigMap c render crName nameSpace scheme s).store = s := by
  rw [reconcileConfigMap_of_absent c render crName nameSpace scheme s config rendered e1
    hcfg hrender hget he1]
  simp [hcr, getInto, isNotFoundErr, he2]

/-- Witness of C5: empty collections, no artifact and no custom resource. -/
theorem reconcileConfigMap_no_owner_noop_witness :
    (reconcileConfigMap storeClient (OperatorConfigToMetalLB serializePoolNames)
      "metallb" "metallb-system" schemeWithMetalLB storeNoOwner).result = .ok () ∧
    (reconcileConfigMap storeClient (OperatorConfigToMetalLB serializePoolNames)
      "metallb" "metallb-system" schemeWithMetalLB storeNoOwner).writes = [] ∧
    (reconcileConfigMap storeClient (OperatorConfigToMetalLB serializePoolNames)
      "metallb" "metallb-system" schemeWithMetalLB storeNoOwner).store = storeNoOwner :=
  reconcileConfigMap_no_owner_noop storeClient (OperatorConfigToMetalLB serializePoolNames)
    "metallb" "metallb-system" schemeWithMetalLB storeNoOwner snapshotNone renderedNone
    (.notFound "config") (.notFound "metallb") rfl rfl rfl rfl rfl rfl

/-- C4: when the `Get` of the config artifact answers not-found and the owning
custom resource is present, `reconcileConfigMap` issues exactly one write, a
`Create` of the rendered artifact named `config` in the given namespace, and the
created object carries the controller reference to that custom resource. The
renderer names the artifact as the snapshot asks, and the owner type is
registered in the scheme. -/
theorem reconcileConfigMap_creates_with_owner {σ : Type} (c : Client σ)
    (render : OperatorConfig → Except Error ConfigMap)
    (crName nameSpace : String) (scheme : Scheme) (s : σ)
    (config : OperatorConfig) (rendered : ConfigMap) (e : Error) (owner : MetalLB)
    (gvk : GroupVersionKind)
    (hcfg : operatorConfig c s = .ok config)
    (hrender : render { config with NameSpace := nameSpace, ConfigMapName := ConfigMapName } =
      .ok rendered)
    (hname : rendered.Name = ConfigMapName) (hns : rendered.Namespace = nameSpace)
    (hfresh : GetControllerOf rendered.OwnerReferences = none)
    (hget : c.GetConfigMap s nameSpace ConfigMapName = .error e) (he : IsNotFound e = true)
    (hcr : c.GetMetalLB s nameSpace crName = .ok owner) (hons : owner.Namespace = nameSpace)
    (hscheme : scheme.MetalLB = some gvk) :
    ∃ obj, (reconcileConfigMap c render crName nameSpace scheme s).writes = [Write.create obj] ∧
      obj.Name = "config" ∧ obj.Namespace = nameSpace ∧ obj.Data = rendered.Data ∧
      controllerRef gvk owner ∈ obj.OwnerReferences ∧
      (controllerRef gvk owner).Name = owner.Name ∧ (controllerRef gvk owner).UID = owner.UID := by
  have hset := SetControllerReference_ok owner rendered scheme gvk (hons.trans hns.symm)
    hscheme hfresh
  refine ⟨{ rendered with
            OwnerReferences := upsertOwnerRef (controllerRef gvk owner) rendered.OwnerReferences },
    ?_, hname, hns, rfl, upsertOwnerRef_mem _ _, rfl, rfl⟩
  rw [reconcileConfigMap_of_absent c render crName nameSpace scheme s config rendered e
    hcfg hrender hget he]
  simp [hcr, getInto, isNotFoundErr, hset]

/-- Witness of C4 on the store holding the custom resource and no artifact. -/
theorem reconcileConfigMap_creates_with_owner_witness :
    ∃ obj, (reconcileConfigMap storeClient (OperatorConfigToMetalLB serializePoolNames)
        "metallb" "metallb-system" schemeWithMetalLB storeNoArtifact).writes =
        [Write.create obj] ∧
      obj.Name = "config" ∧ obj.Namespace = "metallb-system" ∧ obj.Data = renderedGold.Data ∧
      controllerRef { Group := "metallb.io", Version := "v1beta1", Kind := "MetalLB" }
        metalLBInstance ∈ obj.OwnerReferences ∧
      (controllerRef { Group := "metallb.io", Version := "v1beta1", Kind := "MetalLB" }
        metalLBInstance).Name = metalLBInstance.Name ∧
      (controllerRef { Group := "metallb.io", Version := "v1beta1", Kind := "MetalLB" }
        metalLBInstance).UID = metalLBInstance.UID :=
  reconcileConfigMap_creates_with_owner storeClient (OperatorConfigToMetalLB serializePoolNames)
    "metallb" "metallb-system" schemeWithMetalLB storeNoArtifact snapshotGold renderedGold
    (.notFound "config") metalLBInstance
    { Group := "metallb.io", Version := "v1beta1", Kind := "MetalLB" }
    rfl rfl rfl rfl rfl rfl rfl rfl rfl rfl

/-! ## Two successive calls on the in-memory store -/

theorem operatorConfig_storeClient (s : Store) :
    operatorConfig storeClient s = .ok
      { NameSpace := ""
        ConfigMapName := ""
        DataField := ConfigDataField
        Pools := sortSlice (fun i j => stringLess i.Name j.Name) s.AddressPools
        Peers := sortSlice (fun i j => stringLess i.Name j.Name) s.BGPPeers
        BFDProfiles := sortSlice (fun i j => stringLess i.Name j.Name) s.BFDProfiles } :=
  rfl

theorem operatorConfig_storeClient_congr (s t : Store)
    (h1 : t.AddressPools = s.AddressPools) (h2 : t.BGPPeers = s.BGPPeers)
    (h3 : t.BFDProfiles = s.BFDProfiles) :
    operatorConfig storeClient t = operatorConfig storeClient s := by
  rw [operatorConfig_storeClient, operatorConfig_storeClient, h1, h2, h3]

theorem find_after_create (cms : List ConfigMap) (o : ConfigMap)
    (h : cms.find? (ConfigMap.hasKey o.Namespace o.Name) = none) :
    (cms ++ [o]).find? (ConfigMap.hasKey o.Namespace o.Name) = some o := by
  induction cms with
  | nil => simp [List.find?, ConfigMap.hasKey]
  | cons cm rest ih =>
    simp only [List.find?] at h
    split at h
    · cases h
    · rename_i hcm
      simp only [List.cons_append, List.find?, hcm]
      exact ih h

theorem find_after_update (cms : List ConfigMap) (o old : ConfigMap)
    (h : cms.find? (ConfigMap.hasKey o.Namespace o.Name) = some old) :
    (cms.map (fun cm => if cm.hasKey o.Namespace o.Name then o else cm)).find?
      (ConfigMap.hasKey o.Namespace o.Name) = some o := by
  have ho : ConfigMap.hasKey o.Namespace o.Name o = true := by simp [ConfigMap.hasKey]
  induction cms with
  | nil => simp [List.find?] at h
  | cons cm rest ih =>
    simp only [List.find?] at h
    split at h
    · rename_i hcm
      simp [List.find?, hcm, ho]
    · rename_i hcm
      simp [List.find?, hcm, ih h]

/-- The renderer modelled from the spec names the artifact as the snapshot asks. -/
theorem OperatorConfigToMetalLB_named (serialize : OperatorConfig → Except Error String)
    (config : OperatorConfig) (r : ConfigMap)
    (h : OperatorConfigToMetalLB serialize config = .ok r) :
    r.Name = config.ConfigMapName ∧ r.Namespace = config.NameSpace := by
  unfold OperatorConfigToMetalLB at h
  split at h
  · cases h
  · injection h with h
    subst h
    exact ⟨rfl, rfl⟩

/-- After one call on the in-memory store, either nothing was written and the
store is as before, or one `Create` or `Update` was issued and the store now
holds, under the artifact key, an object whose data is the rendered data, with
the listed collections untouched. -/
theorem reconcileConfigMap_storeClient_step
    (render : OperatorConfig → Except Error ConfigMap) (crName nameSpace : String)
    (scheme : Scheme) (s : Store)
    (hrender : ∀ cfg r, render cfg = .ok r →
      r.Name = cfg.ConfigMapName ∧ r.Namespace = cfg.NameSpace) :
    ((reconcileConfigMap storeClient render crName nameSpace scheme s).writes = [] ∧
      (reconcileConfigMap storeClient render crName nameSpace scheme s).store = s) ∨
    ∃ obj config rendered,
      ((reconcileConfigMap storeClient render crName nameSpace scheme s).writes =
          [Write.create obj] ∨
        (reconcileConfigMap storeClient render crName nameSpace scheme s).writes =
          [Write.update obj]) ∧
      operatorConfig storeClient
        (reconcileConfigMap storeClient render crName nameSpace scheme s).store = .ok config ∧
      render { config with NameSpace := nameSpace, ConfigMapName := ConfigMapName } =
        .ok rendered ∧
      storeClient.GetConfigMap
        (reconcileConfigMap storeClient render crName nameSpace scheme s).store
        nameSpace ConfigMapName = .ok obj ∧
      dataAt obj.Data ConfigDataField = dataAt rendered.Data ConfigDataField := by
  obtain ⟨config0, hcfg⟩ : ∃ config0, operatorConfig storeClient s = .ok config0 :=
    ⟨_, operatorConfig_storeClient s⟩
  cases hr : render { config0 with NameSpace := nameSpace, ConfigMapName := ConfigMapName } with
  | error err =>
    left
    unfold reconcileConfigMap
    simp [hcfg, hr]
  | ok rendered =>
    obtain ⟨hname, hns⟩ := hrender _ _ hr
    simp only at hname hns
    cases hfind : s.ConfigMaps.find? (ConfigMap.hasKey nameSpace ConfigMapName) with
    | some existing =>
      have hget : storeClient.GetConfigMap s nameSpace ConfigMapName = .ok existing := by
        simp [storeClient, hfind]
      have h := reconcileConfigMap_of_present storeClient render crName nameSpace scheme s config0
        rendered existing hcfg hr hget
      by_cases hd : dataAt existing.Data ConfigDataField = dataAt rendered.Data ConfigDataField
      · left
        rw [h, if_pos hd]
        exact ⟨rfl, rfl⟩
      · right
        rw [if_neg hd] at h
        have hfind2 : s.ConfigMaps.find?
            (ConfigMap.hasKey
              ({ rendered with OwnerReferences := existing.OwnerReferences } : ConfigMap).Namespace
              ({ rendered with OwnerReferences := existing.OwnerReferences } : ConfigMap).Name) =
            some existing := by
          simpa [hname, hns] using hfind
        have hupd : storeClient.Update s
            { rendered with OwnerReferences := existing.OwnerReferences } =
            (none, { s with ConfigMaps := s.ConfigMaps.map (fun cm =>
              if cm.hasKey rendered.Namespace rendered.Name then
                { rendered with OwnerReferences := existing.OwnerReferences } else cm) }) := by
          simp only [storeClient, hfind2]
        refine ⟨{ rendered with OwnerReferences := existing.OwnerReferences }, config0, rendered,
          Or.inr (by rw [h]), ?_, hr, ?_, rfl⟩
        · rw [h, hupd]
          exact (operatorConfig_storeClient_congr s _ rfl rfl rfl).trans hcfg
        · rw [h, hupd]
          have := find_after_update s.ConfigMaps
            { rendered with OwnerReferences := existing.OwnerReferences } existing hfind2
          simp only [hname, hns] at this
          simp [storeClient, hname, hns, this]
    | none =>
      have hget : storeClient.GetConfigMap s nameSpace ConfigMapName =
          .error (.notFound ConfigMapName) := by
        simp [storeClient, hfind]
      have h := reconcileConfigMap_of_absent storeClient render crName nameSpace scheme s config0
        rendered _ hcfg hr hget rfl
      cases hcr : storeClient.GetMetalLB s nameSpace crName with
      | error e2 =>
        have he2 : IsNotFound e2 = true := by
          simp only [storeClient] at hcr
          split at hcr
          · cases hcr
          · injection hcr with hcr
            subst hcr
            rfl
        left
        rw [h]
        simp [hcr, getInto, isNotFoundErr, he2]
      | ok owner =>
        simp only [hcr, getInto, isNotFoundErr, Option.isSome_none, Bool.false_and,
          Bool.false_eq_true, if_false] at h
        cases hset : SetControllerReference owner rendered scheme with
        | error err =>
          left
          rw [h, hset]
          exact ⟨rfl, rfl⟩
        | ok obj =>
          right
          rw [hset] at h
          simp only at h
          obtain ⟨hn, hnsp, hdata⟩ := SetControllerReference_frame owner rendered obj scheme hset
          have hfind2 : s.ConfigMaps.find? (ConfigMap.hasKey obj.Namespace obj.Name) = none := by
            simpa [hn, hnsp, hname, hns] using hfind
          have hcre : storeClient.Create s obj =
              (none, { s with ConfigMaps := s.ConfigMaps ++ [obj] }) := by
            simp only [storeClient, hfind2]
          refine ⟨obj, config0, rendered, Or.inl (by rw [h]), ?_, hr, ?_, by rw [hdata]⟩
          · rw [h, hcre]
            exact (operatorConfig_storeClient_congr s _ rfl rfl rfl).trans hcfg
          · rw [h, hcre]
            have := find_after_create s.ConfigMaps obj hfind2
            simp only [hn, hnsp, hname, hns] at this
            simp [storeClient, this]

/-- On the in-memory store listing its collections in one fixed order at both
calls, two successive calls of `reconcileConfigMap` issue at most one write in
total: the first issues nothing, one `Create` or one `Update`, and the second
issues nothing. The renderer names the artifact as the snapshot asks. -/
theorem reconcileConfigMap_twice_one_write
    (render : OperatorConfig → Except Error ConfigMap) (crName nameSpace : String)
    (scheme : Scheme) (s : Store)
    (hrender : ∀ cfg r, render cfg = .ok r →
      r.Name = cfg.ConfigMapName ∧ r.Namespace = cfg.NameSpace) :
    ((reconcileConfigMap storeClient render crName nameSpace scheme s).writes = [] ∨
      ∃ obj,
        (reconcileConfigMap storeClient render crName nameSpace scheme s).writes =
          [Write.create obj] ∨
        (reconcileConfigMap storeClient render crName nameSpace scheme s).writes =
          [Write.update obj]) ∧
    (reconcileConfigMap storeClient render crName nameSpace scheme
      (reconcileConfigMap storeClient render crName nameSpace scheme s).store).writes = [] ∧
    (reconcileConfigMap storeClient render crName nameSpace scheme s).writes.length +
      (reconcileConfigMap storeClient render crName nameSpace scheme
        (reconcileConfigMap storeClient render crName nameSpace scheme s).store).writes.length
      ≤ 1 := by
  rcases reconcileConfigMap_storeClient_step render crName nameSpace scheme s hrender with
    ⟨hw, hs⟩ | ⟨obj, config, rendered, hw, hcfg, hr, hget, hd⟩
  · have h2 : (reconcileConfigMap storeClient render crName nameSpace scheme
        (reconcileConfigMap storeClient render crName nameSpace scheme s).store).writes = [] := by
      rw [hs]
      exact hw
    refine ⟨Or.inl hw, h2, ?_⟩
    rw [h2, hw]
    simp
  · have h2 : (reconcileConfigMap storeClient render crName nameSpace scheme
        (reconcileConfigMap storeClient render crName nameSpace scheme s).store).writes = [] := by
      rw [reconcileConfigMap_of_present storeClient render crName nameSpace scheme _ config
        rendered obj hcfg hr hget, if_pos hd]
    refine ⟨Or.inr ⟨obj, hw⟩, h2, ?_⟩
    rw [h2]
    rcases hw with hw | hw <;> simp [hw]

/-- The fixed-order case on the store holding the custom resource and no
artifact: the first call creates the artifact, the second writes nothing. -/
theorem reconcileConfigMap_twice_one_write_witness :
    ((reconcileConfigMap storeClient (OperatorConfigToMetalLB serializePoolNames)
        "metallb" "metallb-system" schemeWithMetalLB storeNoArtifact).writes = [] ∨
      ∃ obj,
        (reconcileConfigMap storeClient (OperatorConfigToMetalLB serializePoolNames)
          "metallb" "metallb-system" schemeWithMetalLB storeNoArtifact).writes =
          [Write.create obj] ∨
        (reconcileConfigMap storeClient (OperatorConfigToMetalLB serializePoolNames)
          "metallb" "metallb-system" schemeWithMetalLB storeNoArtifact).writes =
          [Write.update obj]) ∧
    (reconcileConfigMap storeClient (OperatorConfigToMetalLB serializePoolNames)
      "metallb" "metallb-system" schemeWithMetalLB
      (reconcileConfigMap storeClient (OperatorConfigToMetalLB serializePoolNames)
        "metallb" "metallb-system" schemeWithMetalLB storeNoArtifact).store).writes = [] ∧
    (reconcileConfigMap storeClient (OperatorConfigToMetalLB serializePoolNames)
        "metallb" "metallb-system" schemeWithMetalLB storeNoArtifact).writes.length +
      (reconcileConfigMap storeClient (OperatorConfigToMetalLB serializePoolNames)
        "metallb" "metallb-system" schemeWithMetalLB
        (reconcileConfigMap storeClient (OperatorConfigToMetalLB serializePoolNames)
          "metallb" "metallb-system" schemeWithMetalLB storeNoArtifact).store).writes.length
      ≤ 1 :=
  reconcileConfigMap_twice_one_write (OperatorConfigToMetalLB serializePoolNames)
    "metallb" "metallb-system" schemeWithMetalLB storeNoArtifact
    (OperatorConfigToMetalLB_named serializePoolNames)

/-- C6, evaluated on a store whose `Get` of the config artifact times out while
its `Update` succeeds: the `Get` error is not not-found, and `reconcileConfigMap`
goes on with an empty existing artifact, issues an `Update` without owner
references and returns success. -/
theorem reconcileConfigMap_get_error_dropped :
    getTimesOutClient.GetConfigMap storeStale "metallb-system" ConfigMapName =
      .error (.other "etcdserver: request timed out") ∧
    IsNotFound (.other "etcdserver: request timed out") = false ∧
    (reconcileConfigMap getTimesOutClient (OperatorConfigToMetalLB serializePoolNames)
      "metallb" "metallb-system" schemeWithMetalLB storeStale).result = .ok () ∧
    (reconcileConfigMap getTimesOutClient (OperatorConfigToMetalLB serializePoolNames)
      "metallb" "metallb-system" schemeWithMetalLB storeStale).writes =
      [Write.update renderedGold] :=
  ⟨rfl, rfl, rfl, rfl⟩

/-! ## Properties of the chart parameters -/


theorem isDigit_bounds (c : Char) (h : c.isDigit = true) : 48 ≤ c.toNat ∧ c.toNat ≤ 57 := by
  simp only [Char.isDigit, Bool.and_eq_true, decide_eq_true_eq, ge_iff_le] at h
  exact ⟨h.1, h.2⟩

theorem digitChar_isDigit (d : Nat) (h : d < 10) :
    (digitChar d).isDigit = true ∧ (digitChar d).toNat - 48 = d ∧ digitChar d ≠ '-' ∧
      digitChar d ≠ '+' := by
  interval_cases d <;> decide

theorem isDigit_digitChar (c : Char) (h : c.isDigit = true) :
    c.toNat - 48 < 10 ∧ digitChar (c.toNat - 48) = c := by
  obtain ⟨h1, h2⟩ := isDigit_bounds c h
  refine ⟨by omega, ?_⟩
  unfold digitChar
  rw [Nat.add_sub_cancel' h1]
  exact Char.ofNat_toNat c

theorem atoiDigits_map (ds : List Nat) (acc : Nat) (h : ∀ d ∈ ds, d < 10) :
    atoiDigits (ds.map digitChar) acc = some (ds.foldl (fun a d => a * 10 + d) acc) := by
  induction ds generalizing acc with
  | nil => rfl
  | cons d rest ih =>
    obtain ⟨h1, h2, -, -⟩ := digitChar_isDigit d (h d (List.mem_cons_self d rest))
    simp only [List.map_cons, atoiDigits, h1, if_true, h2, List.foldl_cons]
    exact ih _ (fun x hx => h x (List.mem_cons_of_mem d hx))

theorem atoiDigits_some (cs : List Char) (acc m : Nat) (h : atoiDigits cs acc = some m) :
    ∃ ds : List Nat, cs = ds.map digitChar ∧ (∀ d ∈ ds, d < 10) ∧
      m = ds.foldl (fun a d => a * 10 + d) acc := by
  induction cs generalizing acc with
  | nil =>
    simp only [atoiDigits, Option.some.injEq] at h
    exact ⟨[], rfl, by simp, h.symm⟩
  | cons c rest ih =>
    simp only [atoiDigits] at h
    split at h
    · rename_i hc
      obtain ⟨ds, hds, hlt, hm⟩ := ih _ h
      obtain ⟨b1, b2⟩ := isDigit_digitChar c hc
      refine ⟨(c.toNat - 48) :: ds, ?_, ?_, ?_⟩
      · simp [b2, hds]
      · intro d hd
        rcases List.mem_cons.mp hd with rfl | hd
        · exact b1
        · exact hlt d hd
      · simpa using hm
    · cases h

theorem atoiUnsigned_ok_iff (neg : Bool) (digits : List Char) (n : Int) :
    atoiUnsigned neg digits = .ok n ↔
      ∃ ds : List Nat, ds ≠ [] ∧ (∀ d ∈ ds, d < 10) ∧ digits = ds.map digitChar ∧
        n = (if neg then -(digitsValue ds : Int) else (digitsValue ds : Int)) ∧
        -9223372036854775808 ≤ n ∧ n < 9223372036854775808 := by
  constructor
  · intro h
    unfold atoiUnsigned at h
    by_cases hne : digits = []
    · simp [hne] at h
    · simp only [hne, if_false] at h
      cases hm : atoiDigits digits 0 with
      | none => simp [hm] at h
      | some m =>
        simp only [hm] at h
        obtain ⟨ds, hds, hlt, hval⟩ := atoiDigits_some _ 0 m hm
        have hds0 : ds ≠ [] := by
          rintro rfl
          exact hne (by simpa using hds)
        have hv : m = digitsValue ds := hval
        have h0 : (0 : Int) ≤ m := Int.ofNat_nonneg m
        cases neg with
        | true =>
          simp only [if_true] at h
          by_cases hr : m ≤ 9223372036854775808
          · simp only [hr, if_true, Except.ok.injEq] at h
            have hr2 : (m : Int) ≤ 9223372036854775808 := by exact_mod_cast hr
            refine ⟨ds, hds0, hlt, hds, by simp [← h, hv], ?_, ?_⟩ <;> omega
          · simp [hr] at h
        | false =>
          simp only [Bool.false_eq_true, if_false] at h
          by_cases hr : m < 9223372036854775808
          · simp only [hr, if_true, Except.ok.injEq] at h
            have hr2 : (m : Int) < 9223372036854775808 := by exact_mod_cast hr
            refine ⟨ds, hds0, hlt, hds, by simp [← h, hv], ?_, ?_⟩ <;> omega
          · simp [hr] at h
  · rintro ⟨ds, hds0, hlt, hds, hn, hlo, hhi⟩
    have hmap : ds.map digitChar ≠ [] := by simpa using hds0
    have hparse := atoiDigits_map ds 0 hlt
    have hfold : ds.foldl (fun a d => a * 10 + d) 0 = digitsValue ds := rfl
    unfold atoiUnsigned
    simp only [hds, hmap, if_false, hparse, hfold]
    cases neg with
    | true =>
      simp only [if_true] at hn ⊢
      have hr : digitsValue ds ≤ 9223372036854775808 := by
        have h2 : (digitsValue ds : Int) ≤ 9223372036854775808 := by omega
        exact_mod_cast h2
      simp [hr, hn]
    | false =>
      simp only [Bool.false_eq_true, if_false] at hn ⊢
      have hr : digitsValue ds < 9223372036854775808 := by
        have h2 : (digitsValue ds : Int) < 9223372036854775808 := by omega
        exact_mod_cast h2
      simp [hr, hn]

/-- The values `Atoi` accepts: exactly the decimal numerals of the integers in
the range of a 64-bit `int`. -/
theorem Atoi_ok_iff (s : String) (n : Int) :
    Atoi s = .ok n ↔ IsDecimalText s n ∧ -9223372036854775808 ≤ n ∧ n < 9223372036854775808 := by
  unfold Atoi IsDecimalText
  cases hd : s.data with
  | nil =>
    constructor
    · intro h
      cases h
    · rintro ⟨⟨ds, hds0, -, h | h | h⟩, -⟩
      · exact absurd (by simpa using h.1.symm) hds0
      · cases h.1
      · cases h.1
  | cons c rest =>
    simp only
    by_cases hneg : c = '-'
    · subst hneg
      simp only [if_true, atoiUnsigned_ok_iff, if_true]
      constructor
      · rintro ⟨ds, hds0, hlt, hds, hn, hr⟩
        exact ⟨⟨ds, hds0, hlt, Or.inr (Or.inr ⟨by rw [hds], hn⟩)⟩, hr⟩
      · rintro ⟨⟨ds, hds0, hlt, h | h | h⟩, hr⟩
        · cases ds with
          | nil => exact absurd rfl hds0
          | cons d tl =>
            obtain ⟨-, -, h3, -⟩ := digitChar_isDigit d (hlt d (List.mem_cons_self d tl))
            simp only [List.map_cons, List.cons.injEq] at h
            exact absurd h.1.1.symm h3
        · simp only [List.cons.injEq] at h
          exact absurd h.1.1 (by decide)
        · simp only [List.cons.injEq, true_and] at h
          exact ⟨ds, hds0, hlt, h.1, h.2, hr⟩
    · simp only [hneg, if_false]
      by_cases hpos : c = '+'
      · subst hpos
        simp only [if_true, atoiUnsigned_ok_iff, Bool.false_eq_true, if_false]
        constructor
        · rintro ⟨ds, hds0, hlt, hds, hn, hr⟩
          exact ⟨⟨ds, hds0, hlt, Or.inr (Or.inl ⟨by rw [hds], hn⟩)⟩, hr⟩
        · rintro ⟨⟨ds, hds0, hlt, h | h | h⟩, hr⟩
          · cases ds with
            | nil => exact absurd rfl hds0
            | cons d tl =>
              obtain ⟨-, -, -, h4⟩ := digitChar_isDigit d (hlt d (List.mem_cons_self d tl))
              simp only [List.map_cons, List.cons.injEq] at h
              exact absurd h.1.1.symm h4
          · simp only [List.cons.injEq, true_and] at h
            exact ⟨ds, hds0, hlt, h.1, h.2, hr⟩
          · simp only [List.cons.injEq] at h
            exact absurd h.1.1 (by decide)
      · simp only [hpos, if_false, atoiUnsigned_ok_iff, Bool.false_eq_true]
        constructor
        · rintro ⟨ds, hds0, hlt, hds, hn, hr⟩
          exact ⟨⟨ds, hds0, hlt, Or.inl ⟨hds, hn⟩⟩, hr⟩
        · rintro ⟨⟨ds, hds0, hlt, h | h | h⟩, hr⟩
          · exact ⟨ds, hds0, hlt, h.1, h.2, hr⟩
          · simp only [List.cons.injEq] at h
            exact absurd h.1.1 hpos
          · simp only [List.cons.injEq] at h
            exact absurd h.1.1 hneg

theorem IsDecimalText_ne_empty (s : String) (n : Int) (h : IsDecimalText s n) : s ≠ "" := by
  rintro rfl
  obtain ⟨ds, hds0, -, h | h | h⟩ := h
  · exact hds0 (by simpa using h.1.symm)
  · cases h.1
  · cases h.1

theorem valueWithDefault_unset (env : Environ) (name : String) (d : Int)
    (h : Getenv env name = "") : valueWithDefault env name d = .ok d := by
  simp [valueWithDefault, h]

theorem valueWithDefault_set (env : Environ) (name : String) (d : Int)
    (h : Getenv env name ≠ "") : valueWithDefault env name d = Atoi (Getenv env name) := by
  unfold valueWithDefault
  simp only [h, ne_eq, not_false_eq_true, if_true]
  cases Atoi (Getenv env name) <;> rfl

/-- The outcome of `loadConfig` once the mandatory images are there. -/
theorem loadConfig_of_images (crdGet : String → Option Error) (env : Environ) (isOCP : Bool)
    (h1 : Getenv env "CONTROLLER_IMAGE" ≠ "") (h2 : Getenv env "SPEAKER_IMAGE" ≠ "")
    (h3 : ¬ (Getenv env "METALLB_BGP_TYPE" = bgpFrr ∧ Getenv env "FRR_IMAGE" = ""))
    (p1 p2 p3 : Int)
    (hp1 : valueWithDefault env "MEMBER_LIST_BIND_PORT" 7946 = .ok p1)
    (hp2 : valueWithDefault env "FRR_METRICS_PORT" 7473 = .ok p2)
    (hp3 : valueWithDefault env "METRICS_PORT" 7472 = .ok p3) :
    loadConfig crdGet env isOCP =
      { result := .ok
          { isOpenShift := isOCP
            isFrrEnabled := decide (Getenv env "METALLB_BGP_TYPE" = bgpFrr)
            controllerImage :=
              { repo := (getImageNameTag (Getenv env "CONTROLLER_IMAGE")).1
                tag := (getImageNameTag (Getenv env "CONTROLLER_IMAGE")).2 }
            speakerImage :=
              { repo := (getImageNameTag (Getenv env "SPEAKER_IMAGE")).1
                tag := (getImageNameTag (Getenv env "SPEAKER_IMAGE")).2 }
            frrImage :=
              if Getenv env "METALLB_BGP_TYPE" = bgpFrr then
                { repo := (getImageNameTag (Getenv env "FRR_IMAGE")).1
                  tag := (getImageNameTag (Getenv env "FRR_IMAGE")).2 }
              else { repo := "", tag := "" }
            mlBindPort := p1
            frrMetricsPort := p2
            metricsPort := p3
            enablePodMonitor :=
              decide (Getenv env "DEPLOY_PODMONITORS" = "true") && podMonitorAvailable crdGet }
        gets :=
          if Getenv env "DEPLOY_PODMONITORS" = "true" then ["podmonitors.monitoring.coreos.com"]
          else [] } := by
  unfold loadConfig
  simp only [h1, h2, if_false, decide_eq_true_eq, h3, hp1, hp2, hp3]

/-- The ways `loadConfig` fails: a missing mandatory image, the FRR mode
without its image, or a port that does not parse; it asks the store for nothing
then. -/
theorem loadConfig_error_of (crdGet : String → Option Error) (env : Environ) (isOCP : Bool)
    (h : Getenv env "CONTROLLER_IMAGE" = "" ∨ Getenv env "SPEAKER_IMAGE" = "" ∨
      (Getenv env "METALLB_BGP_TYPE" = bgpFrr ∧ Getenv env "FRR_IMAGE" = "") ∨
      (∃ err, valueWithDefault env "MEMBER_LIST_BIND_PORT" 7946 = .error err) ∨
      (∃ err, valueWithDefault env "FRR_METRICS_PORT" 7473 = .error err) ∨
      (∃ err, valueWithDefault env "METRICS_PORT" 7472 = .error err)) :
    (∃ err, (loadConfig crdGet env isOCP).result = .error err) ∧
      (loadConfig crdGet env isOCP).gets = [] := by
  unfold loadConfig
  by_cases h1 : Getenv env "CONTROLLER_IMAGE" = ""
  · simp [h1]
  · by_cases h2 : Getenv env "SPEAKER_IMAGE" = ""
    · simp [h1, h2]
    · by_cases h3 : Getenv env "METALLB_BGP_TYPE" = bgpFrr ∧ Getenv env "FRR_IMAGE" = ""
      · simp [h1, h2, h3]
      · simp only [h1, h2, if_false, decide_eq_true_eq, h3]
        cases hp1 : valueWithDefault env "MEMBER_LIST_BIND_PORT" 7946 with
        | error e => simp
        | ok p1 =>
          cases hp2 : valueWithDefault env "FRR_METRICS_PORT" 7473 with
          | error e => simp
          | ok p2 =>
            cases hp3 : valueWithDefault env "METRICS_PORT" 7472 with
            | error e => simp
            | ok p3 => simp [h1, h2, h3, hp1, hp2, hp3] at h

/-- Whenever `loadConfig` succeeds, none of its failure conditions holds. -/
theorem loadConfig_ok_inv (crdGet : String → Option Error) (env : Environ) (isOCP : Bool)
    (cfg : chartConfig) (h : (loadConfig crdGet env isOCP).result = .ok cfg) :
    Getenv env "CONTROLLER_IMAGE" ≠ "" ∧ Getenv env "SPEAKER_IMAGE" ≠ "" ∧
      ¬ (Getenv env "METALLB_BGP_TYPE" = bgpFrr ∧ Getenv env "FRR_IMAGE" = "") ∧
      valueWithDefault env "MEMBER_LIST_BIND_PORT" 7946 = .ok cfg.mlBindPort ∧
      valueWithDefault env "FRR_METRICS_PORT" 7473 = .ok cfg.frrMetricsPort ∧
      valueWithDefault env "METRICS_PORT" 7472 = .ok cfg.metricsPort := by
  have key : ∀ P : Prop, (P → ∃ err, (loadConfig crdGet env isOCP).result = .error err) → ¬ P := by
    intro P hP hp
    obtain ⟨err, herr⟩ := hP hp
    rw [herr] at h
    cases h
  have h1 : Getenv env "CONTROLLER_IMAGE" ≠ "" :=
    key _ (fun hp => (loadConfig_error_of crdGet env isOCP (Or.inl hp)).1)
  have h2 : Getenv env "SPEAKER_IMAGE" ≠ "" :=
    key _ (fun hp => (loadConfig_error_of crdGet env isOCP (Or.inr (Or.inl hp))).1)
  have h3 : ¬ (Getenv env "METALLB_BGP_TYPE" = bgpFrr ∧ Getenv env "FRR_IMAGE" = "") :=
    key _ (fun hp => (loadConfig_error_of crdGet env isOCP (Or.inr (Or.inr (Or.inl hp)))).1)
  cases hp1 : valueWithDefault env "MEMBER_LIST_BIND_PORT" 7946 with
  | error e =>
    exact absurd ⟨e, hp1⟩ (key _ (fun hp =>
      (loadConfig_error_of crdGet env isOCP (Or.inr (Or.inr (Or.inr (Or.inl hp))))).1))
  | ok p1 =>
    cases hp2 : valueWithDefault env "FRR_METRICS_PORT" 7473 with
    | error e =>
      exact absurd ⟨e, hp2⟩ (key _ (fun hp =>
        (loadConfig_error_of crdGet env isOCP (Or.inr (Or.inr (Or.inr (Or.inr (Or.inl hp)))))).1))
    | ok p2 =>
      cases hp3 : valueWithDefault env "METRICS_PORT" 7472 with
      | error e =>
        exact absurd ⟨e, hp3⟩ (key _ (fun hp =>
          (loadConfig_error_of crdGet env isOCP
            (Or.inr (Or.inr (Or.inr (Or.inr (Or.inr hp)))))).1))
      | ok p3 =>
        rw [loadConfig_of_images crdGet env isOCP h1 h2 h3 p1 p2 p3 hp1 hp2 hp3] at h
        simp only [Except.ok.injEq] at h
        subst h
        exact ⟨h1, h2, h3, rfl, rfl, rfl⟩

theorem splitFrom_head (sep : Char) (cur l : List Char) :
    ∃ p ps, splitFrom sep cur l = (cur.reverse ++ p) :: ps := by
  induction l generalizing cur with
  | nil => exact ⟨[], [], by simp [splitFrom]⟩
  | cons ch rest ih =>
    unfold splitFrom
    split
    · exact ⟨[], splitFrom sep [] rest, by simp⟩
    · obtain ⟨p, ps, h⟩ := ih (ch :: cur)
      exact ⟨ch :: p, ps, by simp [h]⟩

/-- A non-empty value that does not start with a colon has a non-empty
repository. -/
theorem getImageNameTag_repo_ne_empty (v : String) (h1 : v ≠ "")
    (h2 : v.data.head? ≠ some ':') : (getImageNameTag v).1 ≠ "" := by
  have hrepo : (getImageNameTag v).1 = (Split v ':').getD 0 "" := by
    unfold getImageNameTag
    simp only
    split <;> rfl
  rw [hrepo]
  cases hd : v.data with
  | nil =>
    exact absurd (String.ext hd) h1
  | cons c rest =>
    have hc : c ≠ ':' := by
      intro hc
      exact h2 (by simp [hd, hc])
    obtain ⟨p, ps, hsplit⟩ := splitFrom_head ':' [c] rest
    have : splitFrom ':' [] (c :: rest) = ([c] ++ p) :: ps := by
      simp [splitFrom, hc, hsplit]
    simp only [Split, hd, this, List.map_cons, List.getD_cons_zero]
    intro hempty
    have := congrArg String.data hempty
    simp at this

/-- C11, as it fails: with the two mandatory images and no FRR mode selected,
`loadConfig` succeeds and the repository of the FRR image pair is empty. -/
theorem loadConfig_frr_repo_empty :
    ∃ cfg, (loadConfig crdPresent envMinimal false).result = .ok cfg ∧
      cfg.frrImage.repo = "" :=
  ⟨_, rfl, rfl⟩

/-- C11, amended: whenever `loadConfig` succeeds, `CONTROLLER_IMAGE` and
`SPEAKER_IMAGE` are non-empty and the controller and speaker pairs are the
repository and tag `getImageNameTag` returns for them; the FRR pair is what
`getImageNameTag` returns for a non-empty `FRR_IMAGE` when `METALLB_BGP_TYPE` is
`frr`, and the empty pair otherwise. -/
theorem loadConfig_image_pairs (crdGet : String → Option Error) (env : Environ) (isOCP : Bool)
    (cfg : chartConfig) (h : (loadConfig crdGet env isOCP).result = .ok cfg) :
    (Getenv env "CONTROLLER_IMAGE" ≠ "" ∧
      cfg.controllerImage =
        { repo := (getImageNameTag (Getenv env "CONTROLLER_IMAGE")).1
          tag := (getImageNameTag (Getenv env "CONTROLLER_IMAGE")).2 }) ∧
    (Getenv env "SPEAKER_IMAGE" ≠ "" ∧
      cfg.speakerImage =
        { repo := (getImageNameTag (Getenv env "SPEAKER_IMAGE")).1
          tag := (getImageNameTag (Getenv env "SPEAKER_IMAGE")).2 }) ∧
    (Getenv env "METALLB_BGP_TYPE" = "frr" →
      Getenv env "FRR_IMAGE" ≠ "" ∧
      cfg.frrImage =
        { repo := (getImageNameTag (Getenv env "FRR_IMAGE")).1
          tag := (getImageNameTag (Getenv env "FRR_IMAGE")).2 }) ∧
    (Getenv env "METALLB_BGP_TYPE" ≠ "frr" → cfg.frrImage = { repo := "", tag := "" }) := by
  obtain ⟨h1, h2, h3, hp1, hp2, hp3⟩ := loadConfig_ok_inv crdGet env isOCP cfg h
  rw [loadConfig_of_images crdGet env isOCP h1 h2 h3 _ _ _ hp1 hp2 hp3] at h
  simp only [Except.ok.injEq] at h
  rw [← h]
  refine ⟨⟨h1, rfl⟩, ⟨h2, rfl⟩, ?_, ?_⟩
  · intro hfrr
    have hfrr2 : Getenv env "METALLB_BGP_TYPE" = bgpFrr := hfrr
    have hne : Getenv env "FRR_IMAGE" ≠ "" := fun he => h3 ⟨hfrr2, he⟩
    rw [if_pos hfrr2]
    exact ⟨hne, rfl⟩
  · intro hfrr
    have hfrr2 : ¬ Getenv env "METALLB_BGP_TYPE" = bgpFrr := hfrr
    rw [if_neg hfrr2]

/-- Witness of the amended C11 on the environment selecting the FRR mode: the
three pairs of the loaded configuration are the splits of the three values. -/
theorem loadConfig_image_pairs_witness :
    (loadConfig crdPresent envFrr true).result = .ok cfgFrr ∧
      cfgFrr.controllerImage =
        { repo := (getImageNameTag (Getenv envFrr "CONTROLLER_IMAGE")).1
          tag := (getImageNameTag (Getenv envFrr "CONTROLLER_IMAGE")).2 } ∧
      cfgFrr.speakerImage =
        { repo := (getImageNameTag (Getenv envFrr "SPEAKER_IMAGE")).1
          tag := (getImageNameTag (Getenv envFrr "SPEAKER_IMAGE")).2 } ∧
      Getenv envFrr "FRR_IMAGE" ≠ "" ∧
      cfgFrr.frrImage =
        { repo := (getImageNameTag (Getenv envFrr "FRR_IMAGE")).1
          tag := (getImageNameTag (Getenv envFrr "FRR_IMAGE")).2 } :=
  ⟨rfl,
    (loadConfig_image_pairs crdPresent envFrr true cfgFrr rfl).1.2,
    (loadConfig_image_pairs crdPresent envFrr true cfgFrr rfl).2.1.2,
    ((loadConfig_image_pairs crdPresent envFrr true cfgFrr rfl).2.2.1 rfl).1,
    ((loadConfig_image_pairs crdPresent envFrr true cfgFrr rfl).2.2.1 rfl).2⟩

/-- C13: when `CONTROLLER_IMAGE` is unset or empty, and likewise when
`SPEAKER_IMAGE` is, `loadConfig` returns an error and asks the store for
nothing, so the pod-monitor probe is not run. -/
theorem loadConfig_missing_image (crdGet : String → Option Error) (env : Environ)
    (isOCP : Bool)
    (h : Getenv env "CONTROLLER_IMAGE" = "" ∨ Getenv env "SPEAKER_IMAGE" = "") :
    (∃ err, (loadConfig crdGet env isOCP).result = .error err) ∧
      (loadConfig crdGet env isOCP).gets = [] := by
  rcases h with h | h
  · exact loadConfig_error_of crdGet env isOCP (Or.inl h)
  · exact loadConfig_error_of crdGet env isOCP (Or.inr (Or.inl h))

/-- Witness of C13: the speaker image alone, with the pod monitors asked for. -/
theorem loadConfig_missing_image_witness :
    (∃ err, (loadConfig crdPresent
        [("SPEAKER_IMAGE", "quay.io/x/s:v1"), ("DEPLOY_PODMONITORS", "true")] false).result =
        .error err) ∧
      (loadConfig crdPresent
        [("SPEAKER_IMAGE", "quay.io/x/s:v1"), ("DEPLOY_PODMONITORS", "true")] false).gets = [] :=
  loadConfig_missing_image crdPresent
    [("SPEAKER_IMAGE", "quay.io/x/s:v1"), ("DEPLOY_PODMONITORS", "true")] false (Or.inl rfl)

/-- C14: `valueWithDefault` returns the default when the variable is unset or
empty, the integer `n` when the value is a decimal numeral of an `n` in the range
of `int`, and an error for every other value; `loadConfig` takes its three ports
from it with the defaults 7946, 7473 and 7472 and fails whenever one of the three
fails. -/
theorem valueWithDefault_cases (env : Environ) (name : String) (d : Int) :
    (Getenv env name = "" → valueWithDefault env name d = .ok d) ∧
    (∀ n : Int, IsDecimalText (Getenv env name) n → -9223372036854775808 ≤ n →
      n < 9223372036854775808 → valueWithDefault env name d = .ok n) ∧
    (Getenv env name ≠ "" →
      (¬ ∃ n : Int, IsDecimalText (Getenv env name) n ∧ -9223372036854775808 ≤ n ∧
        n < 9223372036854775808) →
      ∃ err, valueWithDefault env name d = .error err) ∧
    (∀ crdGet isOCP cfg, (loadConfig crdGet env isOCP).result = .ok cfg →
      valueWithDefault env "MEMBER_LIST_BIND_PORT" 7946 = .ok cfg.mlBindPort ∧
      valueWithDefault env "FRR_METRICS_PORT" 7473 = .ok cfg.frrMetricsPort ∧
      valueWithDefault env "METRICS_PORT" 7472 = .ok cfg.metricsPort) ∧
    (∀ crdGet isOCP,
      ((∃ err, valueWithDefault env "MEMBER_LIST_BIND_PORT" 7946 = .error err) ∨
        (∃ err, valueWithDefault env "FRR_METRICS_PORT" 7473 = .error err) ∨
        (∃ err, valueWithDefault env "METRICS_PORT" 7472 = .error err)) →
      ∃ err, (loadConfig crdGet env isOCP).result = .error err) := by
  refine ⟨valueWithDefault_unset env name d, ?_, ?_, ?_, ?_⟩
  · intro n hn hlo hhi
    rw [valueWithDefault_set env name d (IsDecimalText_ne_empty _ n hn)]
    exact (Atoi_ok_iff _ n).mpr ⟨hn, hlo, hhi⟩
  · intro hne hnot
    rw [valueWithDefault_set env name d hne]
    cases hA : Atoi (Getenv env name) with
    | error e => exact ⟨e, rfl⟩
    | ok n => exact absurd ⟨n, (Atoi_ok_iff _ n).mp hA⟩ hnot
  · intro crdGet isOCP cfg h
    exact (loadConfig_ok_inv crdGet env isOCP cfg h).2.2.2
  · intro crdGet isOCP h
    refine (loadConfig_error_of crdGet env isOCP ?_).1
    rcases h with h | h | h
    · exact Or.inr (Or.inr (Or.inr (Or.inl h)))
    · exact Or.inr (Or.inr (Or.inr (Or.inr (Or.inl h))))
    · exact Or.inr (Or.inr (Or.inr (Or.inr (Or.inr h))))

/-- Witness of C14: `METRICS_PORT=9000` is read as 9000, the unset bind port
falls back to 7946. -/
theorem valueWithDefault_cases_witness :
    valueWithDefault envFrr "MEMBER_LIST_BIND_PORT" 7946 = .ok 7946 ∧
      valueWithDefault envFrr "METRICS_PORT" 7472 = .ok 9000 :=
  ⟨(valueWithDefault_cases envFrr "MEMBER_LIST_BIND_PORT" 7946).1 rfl,
    (valueWithDefault_cases envFrr "METRICS_PORT" 7472).2.1 9000
      ⟨[9, 0, 0, 0], by decide, by decide, Or.inl ⟨rfl, rfl⟩⟩ (by decide) (by decide)⟩

/-! ## Properties of the chart values -/

theorem mapGet_mapSet_same {β : Type} (m : List (String × β)) (k : String) (v : β) :
    mapGet (mapSet m k v) k = some v := by
  induction m with
  | nil => simp [mapSet, mapGet]
  | cons kv rest ih =>
    obtain ⟨k', v'⟩ := kv
    by_cases h : k' = k
    · simp [mapSet, mapGet, h]
    · simp [mapSet, mapGet, h, ih]

theorem mapGet_mapSet_ne {β : Type} (m : List (String × β)) (k k2 : String) (v : β)
    (hne : k2 ≠ k) : mapGet (mapSet m k v) k2 = mapGet m k2 := by
  induction m with
  | nil => simp [mapSet, mapGet, hne.symm]
  | cons kv rest ih =>
    obtain ⟨k', v'⟩ := kv
    by_cases h : k' = k
    · subst h
      simp [mapSet, mapGet, hne.symm]
    · by_cases h2 : k' = k2
      · subst h2
        simp [mapSet, mapGet, h]
      · simp [mapSet, mapGet, h, h2, ih]

theorem withPrometheusValues_get (c : chartConfig) (m : List (String × Value)) (k : String) :
    mapGet (withPrometheusValues c m) k =
      if k = "prometheus" then mapGet (withPrometheusValues c []) "prometheus" else mapGet m k := by
  unfold withPrometheusValues
  by_cases h : k = "prometheus"
  · subst h
    simp only [if_true, mapGet_mapSet_same]
  · simp only [h, if_false, mapGet_mapSet_ne _ _ _ _ h]

theorem withControllerValues_get (c : chartConfig) (crdConfig : MetalLBResource)
    (m : List (String × Value)) (k : String) :
    mapGet (withControllerValues c crdConfig m) k =
      if k = "controller" then mapGet (withControllerValues c crdConfig []) "controller"
      else mapGet m k := by
  unfold withControllerValues
  by_cases h : k = "controller"
  · subst h
    cases c.isOpenShift <;> simp only [if_true, mapGet_mapSet_same, Bool.false_eq_true, if_false]
  · cases c.isOpenShift <;>
      simp only [h, if_true, if_false, Bool.false_eq_true, mapGet_mapSet_ne _ _ _ _ h]

theorem withSpeakerValues_get (c : chartConfig) (crdConfig : MetalLBResource)
    (m : List (String × Value)) (k : String) :
    mapGet (withSpeakerValues c crdConfig m) k =
      if k = "speaker" then mapGet (withSpeakerValues c crdConfig []) "speaker"
      else mapGet m k := by
  unfold withSpeakerValues
  by_cases h : k = "speaker"
  · subst h
    simp only [if_true, mapGet_mapSet_same]
  · simp only [h, if_false, mapGet_mapSet_ne _ _ _ _ h]

/-- The `frr` entry of the speaker section, whatever else the section holds. -/
theorem withSpeakerValues_frr (c : chartConfig) (crdConfig : MetalLBResource)
    (m : List (String × Value)) (rest : List String) :
    NestedFieldNoCopy (.map (withSpeakerValues c crdConfig m)) ("speaker" :: "frr" :: rest) =
      NestedFieldNoCopy (.map
        [("enabled", .bool c.isFrrEnabled),
          ("image", .map
            [("repository", .str c.frrImage.repo), ("tag", .str c.frrImage.tag)]),
          ("metricsPort", .int c.frrMetricsPort)]) rest := by
  unfold withSpeakerValues
  simp only [NestedFieldNoCopy, mapGet_mapSet_same]
  cases crdConfig.Spec.SpeakerNodeSelector <;> cases crdConfig.Spec.SpeakerTolerations <;>
    simp [mapSet, mapGet]

/-- C15: after `patchToChartValues` the values under `prometheus`, `controller`
and `speaker` are the ones the code builds from the chart configuration and the
custom resource alone, the same for any two initial maps, and every other
top-level key keeps the value the initial map gave it. -/
theorem patchToChartValues_sections (c : chartConfig) (crdConfig : MetalLBResource)
    (m : List (String × Value)) :
    (mapGet (patchToChartValues c crdConfig m) "prometheus" =
        mapGet (withPrometheusValues c []) "prometheus" ∧
      mapGet (patchToChartValues c crdConfig m) "controller" =
        mapGet (withControllerValues c crdConfig []) "controller" ∧
      mapGet (patchToChartValues c crdConfig m) "speaker" =
        mapGet (withSpeakerValues c crdConfig []) "speaker") ∧
    ((mapGet (patchToChartValues c crdConfig m) "prometheus").isSome = true ∧
      (mapGet (patchToChartValues c crdConfig m) "controller").isSome = true ∧
      (mapGet (patchToChartValues c crdConfig m) "speaker").isSome = true) ∧
    (∀ m2 : List (String × Value),
      mapGet (patchToChartValues c crdConfig m) "prometheus" =
        mapGet (patchToChartValues c crdConfig m2) "prometheus" ∧
      mapGet (patchToChartValues c crdConfig m) "controller" =
        mapGet (patchToChartValues c crdConfig m2) "controller" ∧
      mapGet (patchToChartValues c crdConfig m) "speaker" =
        mapGet (patchToChartValues c crdConfig m2) "speaker") ∧
    (∀ k : String, k ≠ "prometheus" → k ≠ "controller" → k ≠ "speaker" →
      mapGet (patchToChartValues c crdConfig m) k = mapGet m k) := by
  have key : ∀ (m : List (String × Value)) (k : String),
      mapGet (patchToChartValues c crdConfig m) k =
        if k = "speaker" then mapGet (withSpeakerValues c crdConfig []) "speaker"
        else if k = "controller" then mapGet (withControllerValues c crdConfig []) "controller"
        else if k = "prometheus" then mapGet (withPrometheusValues c []) "prometheus"
        else mapGet m k := by
    intro m k
    unfold patchToChartValues
    rw [withSpeakerValues_get, withControllerValues_get, withPrometheusValues_get]
  have hp : ∀ m : List (String × Value), mapGet (patchToChartValues c crdConfig m) "prometheus" =
      mapGet (withPrometheusValues c []) "prometheus" := by
    intro m
    rw [key]
    simp
  have hc : ∀ m : List (String × Value), mapGet (patchToChartValues c crdConfig m) "controller" =
      mapGet (withControllerValues c crdConfig []) "controller" := by
    intro m
    rw [key]
    simp
  have hs : ∀ m : List (String × Value), mapGet (patchToChartValues c crdConfig m) "speaker" =
      mapGet (withSpeakerValues c crdConfig []) "speaker" := by
    intro m
    rw [key]
    simp
  refine ⟨⟨hp m, hc m, hs m⟩, ⟨?_, ?_, ?_⟩, fun m2 => ⟨?_, ?_, ?_⟩, ?_⟩
  · rw [hp m]
    simp [withPrometheusValues, mapSet, mapGet]
  · rw [hc m]
    unfold withControllerValues
    cases c.isOpenShift <;> simp [mapSet, mapGet]
  · rw [hs m]
    simp [withSpeakerValues, mapSet, mapGet]
  · rw [hp m, hp m2]
  · rw [hc m, hc m2]
  · rw [hs m, hs m2]
  · intro k h1 h2 h3
    rw [key]
    simp [h1, h2, h3]

/-- Witness of C15: the caller's `speaker` override is replaced, the foreign
`crds` entry stays. -/
theorem patchToChartValues_sections_witness :
    mapGet (patchToChartValues cfgFrr crSelector overridesMixed) "speaker" =
        mapGet (withSpeakerValues cfgFrr crSelector []) "speaker" ∧
      mapGet (patchToChartValues cfgFrr crSelector overridesMixed) "crds" =
        mapGet overridesMixed "crds" :=
  ⟨(patchToChartValues_sections cfgFrr crSelector overridesMixed).1.2.2,
    (patchToChartValues_sections cfgFrr crSelector overridesMixed).2.2.2 "crds"
      (by decide) (by decide) (by decide)⟩

/-- C12: with `CONTROLLER_IMAGE` and `SPEAKER_IMAGE` set and the three port
variables valid, `loadConfig` fails exactly when `METALLB_BGP_TYPE` is `frr` and
`FRR_IMAGE` is empty; when it succeeds `isFrrEnabled` holds exactly when
`METALLB_BGP_TYPE` is `frr`, and then the speaker section of `withSpeakerValues`
has `frr.enabled` true and `frr.image` repository and tag as `getImageNameTag`
splits `FRR_IMAGE`. -/
theorem loadConfig_frr_gate (crdGet : String → Option Error) (env : Environ) (isOCP : Bool)
    (h1 : Getenv env "CONTROLLER_IMAGE" ≠ "") (h2 : Getenv env "SPEAKER_IMAGE" ≠ "")
    (hp1 : ∃ p, valueWithDefault env "MEMBER_LIST_BIND_PORT" 7946 = .ok p)
    (hp2 : ∃ p, valueWithDefault env "FRR_METRICS_PORT" 7473 = .ok p)
    (hp3 : ∃ p, valueWithDefault env "METRICS_PORT" 7472 = .ok p) :
    ((∃ err, (loadConfig crdGet env isOCP).result = .error err) ↔
      (Getenv env "METALLB_BGP_TYPE" = "frr" ∧ Getenv env "FRR_IMAGE" = "")) ∧
    (∀ cfg, (loadConfig crdGet env isOCP).result = .ok cfg →
      (cfg.isFrrEnabled = true ↔ Getenv env "METALLB_BGP_TYPE" = "frr") ∧
      (Getenv env "METALLB_BGP_TYPE" = "frr" →
        ∀ (crdConfig : MetalLBResource) (valueMap : List (String × Value)),
          NestedFieldNoCopy (.map (withSpeakerValues cfg crdConfig valueMap))
              ["speaker", "frr", "enabled"] = .found (.bool true) ∧
            NestedFieldNoCopy (.map (withSpeakerValues cfg crdConfig valueMap))
              ["speaker", "frr", "image", "repository"] =
              .found (.str (getImageNameTag (Getenv env "FRR_IMAGE")).1) ∧
            NestedFieldNoCopy (.map (withSpeakerValues cfg crdConfig valueMap))
              ["speaker", "frr", "image", "tag"] =
              .found (.str (getImageNameTag (Getenv env "FRR_IMAGE")).2))) := by
  obtain ⟨p1, hp1⟩ := hp1
  obtain ⟨p2, hp2⟩ := hp2
  obtain ⟨p3, hp3⟩ := hp3
  constructor
  · constructor
    · rintro ⟨err, herr⟩
      by_contra hnot
      have hnot2 : ¬ (Getenv env "METALLB_BGP_TYPE" = bgpFrr ∧ Getenv env "FRR_IMAGE" = "") := hnot
      rw [loadConfig_of_images crdGet env isOCP h1 h2 hnot2 p1 p2 p3 hp1 hp2 hp3] at herr
      cases herr
    · intro h
      exact (loadConfig_error_of crdGet env isOCP (Or.inr (Or.inr (Or.inl h)))).1
  · intro cfg hcfg
    obtain ⟨-, -, h3, -, -, -⟩ := loadConfig_ok_inv crdGet env isOCP cfg hcfg
    rw [loadConfig_of_images crdGet env isOCP h1 h2 h3 p1 p2 p3 hp1 hp2 hp3] at hcfg
    simp only [Except.ok.injEq] at hcfg
    subst hcfg
    refine ⟨by simp [bgpFrr], ?_⟩
    intro hfrr crdConfig valueMap
    have hfrr2 : Getenv env "METALLB_BGP_TYPE" = bgpFrr := hfrr
    simp only [withSpeakerValues_frr, hfrr2, if_true, decide_True]
    exact ⟨rfl, rfl, rfl⟩

/-- Witness of C12 on the environment selecting the FRR mode. -/
theorem loadConfig_frr_gate_witness :
    (loadConfig crdPresent envFrr true).result = .ok cfgFrr ∧
      NestedFieldNoCopy (.map (withSpeakerValues cfgFrr crSelector overridesMixed))
        ["speaker", "frr", "image", "repository"] =
        .found (.str (getImageNameTag (Getenv envFrr "FRR_IMAGE")).1) :=
  ⟨rfl, (((loadConfig_frr_gate crdPresent envFrr true (by decide) (by decide)
    ⟨7946, rfl⟩ ⟨7473, rfl⟩ ⟨9000, rfl⟩).2 cfgFrr rfl).2 rfl crSelector overridesMixed).2.1⟩

/-! ## Properties of the patch functions -/

theorem overrideResources_length (name : String) (resources : Option Value)
    (containers : List Container) :
    (overrideResources name resources containers).length = containers.length := by
  simp [overrideResources]

theorem overrideResources_get (name : String) (r : Value) (containers : List Container)
    (j : Nat) (c : Container) (h : containers[j]? = some c) :
    (overrideResources name (some r) containers)[j]? =
      some (if c.Name = name then { c with Resources := r } else c) := by
  simp [overrideResources, List.getElem?_map, h]

/-- C20: a patch function returns the pointer it was given, with no error and
without touching the object, when the object is not its workload (the Deployment
named `controller`, the DaemonSet named `speaker`) and when the spec carries no
override for that workload. -/
theorem override_returns_argument (conv : Converter) (crdConfig : MetalLBResource)
    (obj : Unstructured) :
    (isControllerDeployment obj = false →
      overrideControllerParameters conv crdConfig obj = .ok .arg) ∧
    (isSpeakerDaemonSet obj = false →
      overrideSpeakerParameters conv crdConfig obj = .ok .arg) ∧
    (crdConfig.Spec.ControllerConfig = none →
      overrideControllerParameters conv crdConfig obj = .ok .arg) ∧
    (crdConfig.Spec.SpeakerConfig = none →
      overrideSpeakerParameters conv crdConfig obj = .ok .arg) := by
  refine ⟨?_, ?_, ?_, ?_⟩
  · intro h
    unfold overrideControllerParameters
    cases crdConfig.Spec.ControllerConfig <;> simp [h]
  · intro h
    unfold overrideSpeakerParameters
    cases crdConfig.Spec.SpeakerConfig <;> simp [h]
  · intro h
    unfold overrideControllerParameters
    simp [h]
  · intro h
    unfold overrideSpeakerParameters
    simp [h]

/-- Witness of C20: the controller override leaves a ServiceMonitor alone, and
the controller Deployment is left alone when the spec has no override. -/
theorem override_returns_argument_witness :
    overrideControllerParameters plainConverter crControllerResources renderedMonitor =
        .ok .arg ∧
      overrideControllerParameters plainConverter crEmpty renderedController = .ok .arg :=
  ⟨(override_returns_argument plainConverter crControllerResources renderedMonitor).1 rfl,
    (override_returns_argument plainConverter crEmpty renderedController).2.2.1 rfl⟩

/-- C17: with a resources override for the controller, the object
`overrideControllerParameters` returns for the controller Deployment is the
conversion of the typed Deployment in which every container named `controller`
has the override as its resources and every other container, and every other
field of each container, is as before; likewise `overrideSpeakerParameters`, the
speaker DaemonSet and the containers named `speaker`. -/
theorem override_resources_named_container (conv : Converter) (crdConfig : MetalLBResource)
    (obj : Unstructured) (r : Value) :
    (∀ (cc : Config) (d : Deployment), crdConfig.Spec.ControllerConfig = some cc →
      cc.Resources = some r → isControllerDeployment obj = true →
      conv.DeploymentFromUnstructured obj.Object = .ok d →
      ∃ d1 : Deployment,
        overrideControllerParameters conv crdConfig obj =
          (match conv.DeploymentToUnstructured d1 with
            | .ok objMap => .ok (.fresh { Object := objMap })
            | .error err => .error err) ∧
        d1.Containers.length = d.Containers.length ∧
        (∀ (j : Nat) (c : Container), d.Containers[j]? = some c →
          d1.Containers[j]? =
            some (if c.Name = "controller" then { c with Resources := r } else c)) ∧
        d1.Kind = d.Kind ∧ d1.Name = d.Name ∧ d1.Namespace = d.Namespace ∧ d1.Rest = d.Rest) ∧
    (∀ (sc : Config) (d : DaemonSet), crdConfig.Spec.SpeakerConfig = some sc →
      sc.Resources = some r → isSpeakerDaemonSet obj = true →
      conv.DaemonSetFromUnstructured obj.Object = .ok d →
      ∃ d1 : DaemonSet,
        overrideSpeakerParameters conv crdConfig obj =
          (match conv.DaemonSetToUnstructured d1 with
            | .ok objMap => .ok (.fresh { Object := objMap })
            | .error err => .error err) ∧
        d1.Containers.length = d.Containers.length ∧
        (∀ (j : Nat) (c : Container), d.Containers[j]? = some c →
          d1.Containers[j]? =
            some (if c.Name = "speaker" then { c with Resources := r } else c)) ∧
        d1.Kind = d.Kind ∧ d1.Name = d.Name ∧ d1.Namespace = d.Namespace ∧ d1.Rest = d.Rest) := by
  constructor
  · intro cc d hcc hr hobj hd
    refine ⟨{ (match cc.Affinity with
        | some affinity => { d with Affinity := some affinity }
        | none => d : Deployment) with
        Containers := overrideResources "controller" (some r)
          (match cc.Affinity with
            | some affinity => { d with Affinity := some affinity }
            | none => d : Deployment).Containers }, ?_, ?_, ?_, ?_, ?_, ?_, ?_⟩
    · unfold overrideControllerParameters
      simp only [hcc, hobj, hd, hr, Bool.not_true, Bool.false_eq_true, if_false]
      cases conv.DeploymentToUnstructured _ <;> rfl
    · rw [overrideResources_length]
      cases cc.Affinity <;> rfl
    · intro j c hj
      apply overrideResources_get
      cases cc.Affinity <;> exact hj
    · cases cc.Affinity <;> rfl
    · cases cc.Affinity <;> rfl
    · cases cc.Affinity <;> rfl
    · cases cc.Affinity <;> rfl
  · intro sc d hsc hr hobj hd
    refine ⟨{ (match sc.Affinity with
        | some affinity => { d with Affinity := some affinity }
        | none => d : DaemonSet) with
        Containers := overrideResources "speaker" (some r)
          (match sc.Affinity with
            | some affinity => { d with Affinity := some affinity }
            | none => d : DaemonSet).Containers }, ?_, ?_, ?_, ?_, ?_, ?_, ?_⟩
    · unfold overrideSpeakerParameters
      simp only [hsc, hobj, hd, hr, Bool.not_true, Bool.false_eq_true, if_false]
      cases conv.DaemonSetToUnstructured _ <;> rfl
    · rw [overrideResources_length]
      cases sc.Affinity <;> rfl
    · intro j c hj
      apply overrideResources_get
      cases sc.Affinity <;> exact hj
    · cases sc.Affinity <;> rfl
    · cases sc.Affinity <;> rfl
    · cases sc.Affinity <;> rfl
    · cases sc.Affinity <;> rfl

/-- Witness of C17 on the rendered controller Deployment with its two
containers. -/
theorem override_resources_named_container_witness :
    ∃ d1 : Deployment,
      overrideControllerParameters plainConverter crControllerResources renderedController =
        (match plainConverter.DeploymentToUnstructured d1 with
          | .ok objMap => .ok (.fresh { Object := objMap })
          | .error err => .error err) ∧
      d1.Containers.length = controllerTyped.Containers.length ∧
      (∀ (j : Nat) (c : Container), controllerTyped.Containers[j]? = some c →
        d1.Containers[j]? =
          some (if c.Name = "controller" then { c with Resources := resourcesOverride } else c)) ∧
      d1.Kind = controllerTyped.Kind ∧ d1.Name = controllerTyped.Name ∧
      d1.Namespace = controllerTyped.Namespace ∧ d1.Rest = controllerTyped.Rest :=
  (override_resources_named_container plainConverter crControllerResources renderedController
    resourcesOverride).1 { Affinity := none, Resources := some resourcesOverride }
    controllerTyped rfl rfl rfl rfl

/-! ## Properties of the nested setters -/

theorem setNestedFieldNoCopy_shape (m : List (String × Value)) (v : Value) (f : String)
    (rest : List String) (m1 : List (String × Value))
    (h : setNestedFieldNoCopy m v (f :: rest) = .ok m1) : ∃ w, m1 = mapSet m f w := by
  cases rest with
  | nil =>
    simp only [setNestedFieldNoCopy, Except.ok.injEq] at h
    exact ⟨v, h.symm⟩
  | cons g rest =>
    simp only [setNestedFieldNoCopy] at h
    split at h
    · split at h
      · simp only [Except.ok.injEq] at h
        exact ⟨_, h.symm⟩
      · cases h
    · cases h
    · split at h
      · simp only [Except.ok.injEq] at h
        exact ⟨_, h.symm⟩
      · cases h

theorem setNestedFieldNoCopy_frame (m : List (String × Value)) (v : Value) (f : String)
    (rest : List String) (m1 : List (String × Value))
    (h : setNestedFieldNoCopy m v (f :: rest) = .ok m1) (k : String) (hk : k ≠ f) :
    mapGet m1 k = mapGet m k := by
  obtain ⟨w, rfl⟩ := setNestedFieldNoCopy_shape m v f rest m1 h
  exact mapGet_mapSet_ne m f k w hk

theorem setNestedFieldNoCopy_two (m : List (String × Value)) (v : Value) (a b : String)
    (m1 : List (String × Value)) (h : setNestedFieldNoCopy m v [a, b] = .ok m1) :
    ∃ t, (mapGet m a = none ∧ t = [] ∨ mapGet m a = some (.map t)) ∧
      m1 = mapSet m a (.map (mapSet t b v)) := by
  simp only [setNestedFieldNoCopy] at h
  split at h
  · rename_i t ht
    simp only [Except.ok.injEq] at h
    exact ⟨t, Or.inr ht, h.symm⟩
  · cases h
  · rename_i ht
    simp only [Except.ok.injEq] at h
    exact ⟨[], Or.inl ⟨ht, rfl⟩, by rw [← h]⟩

theorem setNestedFieldNoCopy_read (v : Value) (path : List String) (hne : path ≠ [])
    (m m1 : List (String × Value)) (h : setNestedFieldNoCopy m v path = .ok m1) :
    NestedFieldNoCopy (.map m1) path = .found v := by
  induction path generalizing m m1 with
  | nil => exact absurd rfl hne
  | cons f rest ih =>
    cases rest with
    | nil =>
      simp only [setNestedFieldNoCopy, Except.ok.injEq] at h
      subst h
      simp [NestedFieldNoCopy, mapGet_mapSet_same]
    | cons g rest =>
      simp only [setNestedFieldNoCopy] at h
      split at h
      · rename_i t ht
        cases h2 : setNestedFieldNoCopy t v (g :: rest) with
        | error e => simp [h2] at h
        | ok m2 =>
          simp only [h2, Except.ok.injEq] at h
          subst h
          have := ih (by simp) t m2 h2
          simpa [NestedFieldNoCopy, mapGet_mapSet_same] using this
      · cases h
      · cases h2 : setNestedFieldNoCopy [] v (g :: rest) with
        | error e => simp [h2] at h
        | ok m2 =>
          simp only [h2, Except.ok.injEq] at h
          subst h
          have := ih (by simp) [] m2 h2
          simpa [NestedFieldNoCopy, mapGet_mapSet_same] using this

theorem NestedFieldNoCopy_one (m : List (String × Value)) (k : String) :
    NestedFieldNoCopy (.map m) [k] =
      match mapGet m k with
      | some v => .found v
      | none => .missing := by
  cases h : mapGet m k <;> simp [NestedFieldNoCopy, h]

theorem NestedFieldNoCopy_two_of_set (m t : List (String × Value)) (a b k : String) (v : Value)
    (ht : mapGet m a = none ∧ t = [] ∨ mapGet m a = some (.map t)) (hk : k ≠ b) :
    NestedFieldNoCopy (.map (mapSet m a (.map (mapSet t b v)))) [a, k] =
      NestedFieldNoCopy (.map m) [a, k] := by
  rcases ht with ⟨hnone, rfl⟩ | hsome
  · simp [NestedFieldNoCopy, mapGet_mapSet_same, hnone, mapSet, mapGet, hk.symm]
  · simp [NestedFieldNoCopy, mapGet_mapSet_same, hsome, mapGet_mapSet_ne _ _ _ _ hk]

theorem EndpointPatched_of_set (m m1 : List (String × Value))
    (h : setNestedFieldNoCopy m (.bool false) ["tlsConfig", "insecureSkipVerify"] = .ok m1) :
    EndpointPatched (.map m) (.map m1) := by
  refine ⟨setNestedFieldNoCopy_read _ _ (by simp) m m1 h, ?_, ?_⟩
  · intro k hk
    rw [NestedFieldNoCopy_one, NestedFieldNoCopy_one,
      setNestedFieldNoCopy_frame m _ _ _ m1 h k hk]
  · intro k hk
    obtain ⟨t, ht, rfl⟩ := setNestedFieldNoCopy_two m _ _ _ m1 h
    exact NestedFieldNoCopy_two_of_set m t _ _ k _ ht hk

theorem setEndpointFields_patched (eps eps1 : List Value)
    (h : setEndpointFields eps = .ok eps1) : List.Forall₂ EndpointPatched eps eps1 := by
  induction eps generalizing eps1 with
  | nil =>
    simp only [setEndpointFields, Except.ok.injEq] at h
    subst h
    exact List.Forall₂.nil
  | cons ep rest ih =>
    cases ep with
    | map m =>
      simp only [setEndpointFields] at h
      cases h1 : setNestedFieldNoCopy m (.bool false) ["tlsConfig", "insecureSkipVerify"] with
      | error e => simp [h1] at h
      | ok m1 =>
        cases h2 : setEndpointFields rest with
        | error e => simp [h1, h2] at h
        | ok rest1 =>
          simp only [h1, h2, Except.ok.injEq] at h
          subst h
          exact List.Forall₂.cons (EndpointPatched_of_set m m1 h1) (ih rest1 h2)
    | null => simp [setEndpointFields] at h
    | str s => simp [setEndpointFields] at h
    | int n => simp [setEndpointFields] at h
    | bool b => simp [setEndpointFields] at h
    | list l => simp [setEndpointFields] at h

theorem NestedSlice_found (obj : Value) (path : List String) (eps : List Value)
    (h : NestedSlice obj path = .found eps) : NestedFieldNoCopy obj path = .found (.list eps) := by
  unfold NestedSlice at h
  split at h <;> simp_all

/-- C19: when `spec.endpoints` is absent `setOcpMonitorFields` returns an error;
and whenever it succeeds the object has as many endpoints as before, in the same
order, each with `tlsConfig.insecureSkipVerify` set to false and every other
field of the endpoint and of its `tlsConfig` as before, and every other field of
the object and of its `spec` is unchanged. -/
theorem setOcpMonitorFields_endpoints (obj : Unstructured) :
    (NestedFieldNoCopy (.map obj.Object) ["spec", "endpoints"] = .missing →
      ∃ err, setOcpMonitorFields obj = .error err) ∧
    (∀ obj1 : Unstructured, setOcpMonitorFields obj = .ok obj1 →
      ∃ eps eps1 : List Value,
        NestedSlice (.map obj.Object) ["spec", "endpoints"] = .found eps ∧
        NestedSlice (.map obj1.Object) ["spec", "endpoints"] = .found eps1 ∧
        eps1.length = eps.length ∧
        List.Forall₂ EndpointPatched eps eps1 ∧
        (∀ k : String, k ≠ "spec" → mapGet obj1.Object k = mapGet obj.Object k) ∧
        (∀ k : String, k ≠ "endpoints" →
          NestedFieldNoCopy (.map obj1.Object) ["spec", k] =
            NestedFieldNoCopy (.map obj.Object) ["spec", k])) := by
  constructor
  · intro h
    unfold setOcpMonitorFields NestedSlice
    simp only [h]
    exact ⟨_, rfl⟩
  · intro obj1 h
    unfold setOcpMonitorFields at h
    cases hs : NestedSlice (.map obj.Object) ["spec", "endpoints"] with
    | missing => simp [hs] at h
    | failed e => simp [hs] at h
    | found eps =>
      simp only [hs] at h
      cases he : setEndpointFields eps with
      | error e => simp [he] at h
      | ok eps1 =>
        simp only [he] at h
        cases hm : setNestedFieldNoCopy obj.Object (.list eps1) ["spec", "endpoints"] with
        | error e => simp [hm] at h
        | ok m =>
          simp only [hm, Except.ok.injEq] at h
          subst h
          have hpatched := setEndpointFields_patched eps eps1 he
          refine ⟨eps, eps1, rfl, ?_, hpatched.length_eq.symm, hpatched, ?_, ?_⟩
          · have := setNestedFieldNoCopy_read (.list eps1) _ (by simp) obj.Object m hm
            simp [NestedSlice, this]
          · intro k hk
            exact setNestedFieldNoCopy_frame obj.Object _ _ _ m hm k hk
          · intro k hk
            obtain ⟨t, ht, rfl⟩ := setNestedFieldNoCopy_two obj.Object _ _ _ m hm
            exact NestedFieldNoCopy_two_of_set obj.Object t _ _ k _ ht hk

/-- Witness of C19: a ServiceMonitor without endpoints is refused, and the one
with two endpoints keeps both. -/
theorem setOcpMonitorFields_endpoints_witness :
    (∃ err, setOcpMonitorFields renderedMonitorBare = .error err) ∧
    (∃ obj1, setOcpMonitorFields renderedMonitor = .ok obj1 ∧
      ∃ eps eps1 : List Value,
        NestedSlice (.map renderedMonitor.Object) ["spec", "endpoints"] = .found eps ∧
        NestedSlice (.map obj1.Object) ["spec", "endpoints"] = .found eps1 ∧
        eps1.length = eps.length ∧
        List.Forall₂ EndpointPatched eps eps1 ∧
        (∀ k : String, k ≠ "spec" → mapGet obj1.Object k = mapGet renderedMonitor.Object k) ∧
        (∀ k : String, k ≠ "endpoints" →
          NestedFieldNoCopy (.map obj1.Object) ["spec", k] =
            NestedFieldNoCopy (.map renderedMonitor.Object) ["spec", k])) :=
  ⟨(setOcpMonitorFields_endpoints renderedMonitorBare).1 rfl,
    ⟨_, rfl, (setOcpMonitorFields_endpoints renderedMonitor).2 _ rfl⟩⟩

/-! ## Properties of GetObjects -/

theorem getNestedString_congr (a b : List (String × Value)) (f : String) (rest : List String)
    (h : mapGet a f = mapGet b f) :
    getNestedString a (f :: rest) = getNestedString b (f :: rest) := by
  simp [getNestedString, NestedString, NestedFieldNoCopy, h]

/-- Kind, name and namespace are read from the top-level fields `kind` and
`metadata` only. -/
theorem meta_of_frame (a b : Unstructured) (f : String) (hk : f ≠ "kind")
    (hm : f ≠ "metadata") (h : ∀ k : String, k ≠ f → mapGet a.Object k = mapGet b.Object k) :
    a.GetKind = b.GetKind ∧ a.GetName = b.GetName ∧ a.GetNamespace = b.GetNamespace :=
  ⟨getNestedString_congr _ _ _ _ (h "kind" hk.symm),
    getNestedString_congr _ _ _ _ (h "metadata" hm.symm),
    getNestedString_congr _ _ _ _ (h "metadata" hm.symm)⟩

theorem mapGet_mapDelete_same {β : Type} (m : List (String × β)) (k : String) :
    mapGet (mapDelete m k) k = none := by
  induction m with
  | nil => rfl
  | cons kv rest ih =>
    obtain ⟨k1, v1⟩ := kv
    by_cases h : k1 = k
    · simpa [mapDelete, h] using ih
    · simpa [mapDelete, h, mapGet] using ih

theorem SetNamespace_kind (obj : Unstructured) (ns : String) :
    (obj.SetNamespace ns).GetKind = obj.GetKind := by
  apply getNestedString_congr
  unfold Unstructured.SetNamespace
  split
  · simp only [RemoveNestedField]
    split
    · exact mapGet_mapSet_ne _ _ _ _ (by decide)
    · rfl
  · split
    · rename_i m hm
      exact setNestedFieldNoCopy_frame obj.Object _ _ _ m hm "kind" (by decide)
    · rfl

theorem SetNamespace_namespace (obj : Unstructured) (ns : String)
    (hmeta : mapGet obj.Object "metadata" = none ∨
      ∃ m, mapGet obj.Object "metadata" = some (.map m)) :
    (obj.SetNamespace ns).GetNamespace = ns := by
  unfold Unstructured.SetNamespace Unstructured.GetNamespace
  by_cases hlen : ns.length = 0
  · have hns : ns = "" := String.ext (List.length_eq_zero.mp hlen)
    subst hns
    simp only [String.length_empty, if_true, RemoveNestedField]
    rcases hmeta with hnone | ⟨m, hsome⟩
    · simp [hnone, getNestedString, NestedString, NestedFieldNoCopy]
    · simp [hsome, getNestedString, NestedString, NestedFieldNoCopy, mapGet_mapSet_same,
        mapGet_mapDelete_same]
  · simp only [hlen, if_false]
    rcases hmeta with hnone | ⟨m, hsome⟩
    · simp [setNestedFieldNoCopy, hnone, getNestedString, NestedString, NestedFieldNoCopy,
        mapGet_mapSet_same, mapSet, mapGet]
    · simp [setNestedFieldNoCopy, hsome, getNestedString, NestedString, NestedFieldNoCopy,
        mapGet_mapSet_same]

theorem overrideControllerParameters_meta (conv : Converter) (hconv : conv.KeepsMeta)
    (crdConfig : MetalLBResource) (obj : Unstructured) (r : Returned)
    (h : overrideControllerParameters conv crdConfig obj = .ok r) :
    (r.deref obj).GetKind = obj.GetKind ∧ (r.deref obj).GetNamespace = obj.GetNamespace := by
  unfold overrideControllerParameters at h
  cases hcc : crdConfig.Spec.ControllerConfig with
  | none =>
    simp only [hcc, Except.ok.injEq] at h
    subst h
    exact ⟨rfl, rfl⟩
  | some cc =>
    simp only [hcc] at h
    by_cases hctl : isControllerDeployment obj = true
    · simp only [hctl, Bool.not_true, Bool.false_eq_true, if_false] at h
      cases hd : conv.DeploymentFromUnstructured obj.Object with
      | error e => simp [hd] at h
      | ok d =>
        simp only [hd] at h
        split at h
        · cases h
        · rename_i objMap hto
          simp only [Except.ok.injEq] at h
          subst h
          obtain ⟨hk, hn⟩ := hconv.deploymentFrom obj.Object d hd
          obtain ⟨hk2, hn2⟩ := hconv.deploymentTo _ objMap hto
          simp only [Returned.deref]
          constructor
          · rw [hk2]
            cases cc.Affinity <;> exact hk
          · rw [hn2]
            cases cc.Affinity <;> exact hn
    · simp only [hctl, Bool.not_false, if_true, Except.ok.injEq] at h
      subst h
      exact ⟨rfl, rfl⟩

theorem overrideSpeakerParameters_meta (conv : Converter) (hconv : conv.KeepsMeta)
    (crdConfig : MetalLBResource) (obj : Unstructured) (r : Returned)
    (h : overrideSpeakerParameters conv crdConfig obj = .ok r) :
    (r.deref obj).GetKind = obj.GetKind ∧ (r.deref obj).GetNamespace = obj.GetNamespace := by
  unfold overrideSpeakerParameters at h
  cases hcc : crdConfig.Spec.SpeakerConfig with
  | none =>
    simp only [hcc, Except.ok.injEq] at h
    subst h
    exact ⟨rfl, rfl⟩
  | some sc =>
    simp only [hcc] at h
    by_cases hctl : isSpeakerDaemonSet obj = true
    · simp only [hctl, Bool.not_true, Bool.false_eq_true, if_false] at h
      cases hd : conv.DaemonSetFromUnstructured obj.Object with
      | error e => simp [hd] at h
      | ok d =>
        simp only [hd] at h
        split at h
        · cases h
        · rename_i objMap hto
          simp only [Except.ok.injEq] at h
          subst h
          obtain ⟨hk, hn⟩ := hconv.daemonSetFrom obj.Object d hd
          obtain ⟨hk2, hn2⟩ := hconv.daemonSetTo _ objMap hto
          simp only [Returned.deref]
          constructor
          · rw [hk2]
            cases sc.Affinity <;> exact hk
          · rw [hn2]
            cases sc.Affinity <;> exact hn
    · simp only [hctl, Bool.not_false, if_true, Except.ok.injEq] at h
      subst h
      exact ⟨rfl, rfl⟩

theorem setOcpMonitorFields_frame (obj obj1 : Unstructured)
    (h : setOcpMonitorFields obj = .ok obj1) (k : String) (hk : k ≠ "spec") :
    mapGet obj1.Object k = mapGet obj.Object k := by
  unfold setOcpMonitorFields at h
  split at h
  · split at h
    · cases h
    · split at h
      · cases h
      · rename_i m hm
        simp only [Except.ok.injEq] at h
        subst h
        exact setNestedFieldNoCopy_frame obj.Object _ _ _ m hm k hk
  · cases h

/-- What the loop body of `GetObjects` does to kind and namespace of one
object. -/
theorem patchRendered_meta (h : MetalLBChart) (conv : Converter) (hconv : conv.KeepsMeta)
    (crdConfig : MetalLBResource) (obj r : Unstructured)
    (hmeta : mapGet obj.Object "metadata" = none ∨
      ∃ m, mapGet obj.Object "metadata" = some (.map m))
    (hr : patchRendered h conv crdConfig obj = .ok r) :
    r.GetKind = obj.GetKind ∧
      (obj.GetKind ≠ "PodSecurityPolicy" → r.GetNamespace = h.nameSpace) ∧
      (obj.GetKind = "PodSecurityPolicy" → r.GetNamespace = obj.GetNamespace) := by
  unfold patchRendered at hr
  simp only at hr
  generalize hobj1 : (if obj.GetKind ≠ "PodSecurityPolicy" then obj.SetNamespace h.nameSpace
    else obj) = obj1 at hr
  have hk1 : obj1.GetKind = obj.GetKind := by
    rw [← hobj1]
    split
    · exact SetNamespace_kind obj h.nameSpace
    · rfl
  have hn1 : (obj.GetKind ≠ "PodSecurityPolicy" → obj1.GetNamespace = h.nameSpace) ∧
      (obj.GetKind = "PodSecurityPolicy" → obj1.GetNamespace = obj.GetNamespace) := by
    rw [← hobj1]
    constructor
    · intro hne
      rw [if_pos hne]
      exact SetNamespace_namespace obj h.nameSpace hmeta
    · intro he
      rw [if_neg (not_not.mpr he)]
  suffices hsame : r.GetKind = obj1.GetKind ∧ r.GetNamespace = obj1.GetNamespace by
    refine ⟨hsame.1.trans hk1, fun hne => hsame.2.trans (hn1.1 hne),
      fun he => hsame.2.trans (hn1.2 he)⟩
  clear hobj1 hk1 hn1 hmeta
  cases hc : overrideControllerParameters conv crdConfig obj1 with
  | error e => simp [hc] at hr
  | ok r1 =>
    have m1 := overrideControllerParameters_meta conv hconv crdConfig obj1 r1 hc
    simp only [hc] at hr
    cases hs : overrideSpeakerParameters conv crdConfig (r1.deref obj1) with
    | error e => simp [hs] at hr
    | ok r2 =>
      have m2 := overrideSpeakerParameters_meta conv hconv crdConfig (r1.deref obj1) r2 hs
      simp only [hs] at hr
      generalize hpe : (if (isControllerDeployment obj1 && h.config.isOpenShift) = true then
          match setNestedFieldNoCopy obj1.Object (Value.map [("runAsNonRoot", Value.bool true)])
              ["spec", "template", "spec", "securityContext"] with
          | Except.error err => Except.error err
          | Except.ok m => Except.ok ({ Object := m } : Unstructured)
        else Except.ok obj1) = patched at hr
      cases patched with
      | error e => simp at hr
      | ok obj2 =>
        have f2 : ∀ k : String, k ≠ "spec" → mapGet obj2.Object k = mapGet obj1.Object k := by
          intro k hk
          split at hpe
          · split at hpe
            · cases hpe
            · rename_i m hm
              simp only [Except.ok.injEq] at hpe
              subst hpe
              exact setNestedFieldNoCopy_frame obj1.Object _ _ _ m hm k hk
          · simp only [Except.ok.injEq] at hpe
            subst hpe
            rfl
        simp only at hr
        generalize hme : (if (isServiceMonitor obj2 && h.config.isOpenShift) = true then
            setOcpMonitorFields obj2 else Except.ok obj2) = monitored at hr
        cases monitored with
        | error e => simp at hr
        | ok obj3 =>
          have f3 : ∀ k : String, k ≠ "spec" → mapGet obj3.Object k = mapGet obj2.Object k := by
            intro k hk
            split at hme
            · exact setOcpMonitorFields_frame obj2 obj3 hme k hk
            · simp only [Except.ok.injEq] at hme
              subst hme
              rfl
          have m3 := meta_of_frame obj3 obj1 "spec" (by decide) (by decide)
            (fun k hk => (f3 k hk).trans (f2 k hk))
          simp only [Except.ok.injEq] at hr
          subst hr
          cases r2 with
          | arg =>
            cases r1 with
            | arg => exact ⟨m3.1, m3.2.2⟩
            | fresh o1 => exact m1
          | fresh o2 => exact ⟨m2.1.trans m1.1, m2.2.trans m1.2⟩

theorem patchRendered_policy (h : MetalLBChart) (conv : Converter)
    (crdConfig : MetalLBResource) (obj : Unstructured)
    (hk : obj.GetKind = "PodSecurityPolicy") :
    patchRendered h conv crdConfig obj = .ok obj := by
  have h1 : isControllerDeployment obj = false := by simp [isControllerDeployment, hk]
  have h2 : isSpeakerDaemonSet obj = false := by simp [isSpeakerDaemonSet, hk]
  have h3 : isServiceMonitor obj = false := by simp [isServiceMonitor, hk]
  have hc : overrideControllerParameters conv crdConfig obj = .ok .arg := by
    unfold overrideControllerParameters
    cases crdConfig.Spec.ControllerConfig <;> simp [h1]
  have hs : overrideSpeakerParameters conv crdConfig obj = .ok .arg := by
    unfold overrideSpeakerParameters
    cases crdConfig.Spec.SpeakerConfig <;> simp [h2]
  unfold patchRendered
  simp [hk, hc, hs, Returned.deref, h1, h3]

/-- C18: for every list of rendered objects whose `metadata`, where present, is
a map, and for conversions that carry kind and namespace: whenever `GetObjects`
succeeds, the returned objects correspond one to one, in order and kind by kind,
to the rendered ones; every returned object whose kind is not
`PodSecurityPolicy` has the chart's namespace, and every returned
`PodSecurityPolicy` is the rendered object, with the namespace it was rendered
with. -/
theorem GetObjects_namespace (h : MetalLBChart) (conv : Converter)
    (crdConfig : MetalLBResource) (objs res : List Unstructured)
    (hconv : conv.KeepsMeta)
    (hmeta : ∀ obj ∈ objs, mapGet obj.Object "metadata" = none ∨
      ∃ m, mapGet obj.Object "metadata" = some (.map m))
    (hres : GetObjects h conv crdConfig objs = .ok res) :
    List.Forall₂ (fun obj r =>
      r.GetKind = obj.GetKind ∧
      (r.GetKind ≠ "PodSecurityPolicy" → r.GetNamespace = h.nameSpace) ∧
      (r.GetKind = "PodSecurityPolicy" → r = obj ∧ r.GetNamespace = obj.GetNamespace))
      objs res := by
  induction objs generalizing res with
  | nil =>
    simp only [GetObjects, Except.ok.injEq] at hres
    subst hres
    exact List.Forall₂.nil
  | cons obj rest ih =>
    simp only [GetObjects] at hres
    cases h1 : patchRendered h conv crdConfig obj with
    | error e => simp [h1] at hres
    | ok r =>
      cases h2 : GetObjects h conv crdConfig rest with
      | error e => simp [h1, h2] at hres
      | ok rs =>
        simp only [h1, h2, Except.ok.injEq] at hres
        subst hres
        have hm := patchRendered_meta h conv hconv crdConfig obj r
          (hmeta obj (List.mem_cons_self obj rest)) h1
        refine List.Forall₂.cons ⟨hm.1, ?_, ?_⟩
          (ih rs (fun o ho => hmeta o (List.mem_cons_of_mem obj ho)) h2)
        · intro hne
          exact hm.2.1 (fun he => hne (hm.1.trans he))
        · intro he
          have hobj : obj.GetKind = "PodSecurityPolicy" := hm.1.symm.trans he
          have hsame : r = obj := by
            have := patchRendered_policy h conv crdConfig obj hobj
            rw [h1] at this
            exact (Except.ok.inj this)
          exact ⟨hsame, by rw [hsame]⟩

theorem plainConverter_keepsMeta : plainConverter.KeepsMeta := by
  constructor
  · intro obj d h
    simp only [plainConverter] at h
    split at h
    · cases h
    · simp only [Except.ok.injEq] at h
      subst h
      exact ⟨rfl, rfl⟩
  · intro d obj h
    simp only [plainConverter, Except.ok.injEq] at h
    subst h
    simp [Unstructured.GetKind, Unstructured.GetNamespace, getNestedString, NestedString,
      NestedFieldNoCopy, plainToUnstructured, mapGet]
  · intro obj d h
    simp only [plainConverter] at h
    split at h
    · cases h
    · simp only [Except.ok.injEq] at h
      subst h
      exact ⟨rfl, rfl⟩
  · intro d obj h
    simp only [plainConverter, Except.ok.injEq] at h
    subst h
    simp [Unstructured.GetKind, Unstructured.GetNamespace, getNestedString, NestedString,
      NestedFieldNoCopy, plainToUnstructured, mapGet]

/-- Witness of C18 on a controller Deployment that is rebuilt by the override, a
ServiceMonitor and a pod security policy. -/
theorem GetObjects_namespace_witness :
    ∃ res, GetObjects chartOpenShift plainConverter crControllerResources
        [renderedController, renderedMonitor, renderedPolicy] = .ok res ∧
      List.Forall₂ (fun obj r =>
        r.GetKind = obj.GetKind ∧
        (r.GetKind ≠ "PodSecurityPolicy" → r.GetNamespace = chartOpenShift.nameSpace) ∧
        (r.GetKind = "PodSecurityPolicy" → r = obj ∧ r.GetNamespace = obj.GetNamespace))
        [renderedController, renderedMonitor, renderedPolicy] res :=
  ⟨_, rfl, GetObjects_namespace chartOpenShift plainConverter crControllerResources
    [renderedController, renderedMonitor, renderedPolicy] _ plainConverter_keepsMeta
    (by
      intro obj hobj
      simp only [List.mem_cons, List.mem_singleton, List.not_mem_nil, or_false] at hobj
      rcases hobj with rfl | rfl | rfl
      · exact Or.inr ⟨_, rfl⟩
      · exact Or.inr ⟨_, rfl⟩
      · exact Or.inr ⟨_, rfl⟩)
    rfl⟩

/-- C16, evaluated on OpenShift with a resources override for the controller:
`overrideControllerParameters` hands back a newly built Deployment, the write of
the security context goes to the object the loop variable still points to, and
the Deployment returned keeps the rendered security context with its
`runAsUser`. -/
theorem GetObjects_security_context_kept :
    chartOpenShift.config.isOpenShift = true ∧
    GetObjects chartOpenShift plainConverter crControllerResources [renderedController] =
      .ok [controllerReturned] ∧
    isControllerDeployment controllerReturned = true ∧
    NestedFieldNoCopy (.map controllerReturned.Object)
      ["spec", "template", "spec", "securityContext"] =
      .found (.map [("runAsNonRoot", .bool true), ("runAsUser", .int 65534)]) ∧
    NestedFieldNoCopy (.map controllerReturned.Object)
      ["spec", "template", "spec", "securityContext"] ≠
      .found (.map [("runAsNonRoot", .bool true)]) := by
  have h2 : NestedFieldNoCopy (.map controllerReturned.Object)
      ["spec", "template", "spec", "securityContext"] =
      .found (.map [("runAsNonRoot", .bool true), ("runAsUser", .int 65534)]) := rfl
  refine ⟨rfl, rfl, rfl, h2, ?_⟩
  rw [h2]
  simp

theorem mapGet_mapDelete_ne {β : Type} (m : List (String × β)) (k k2 : String) (hne : k2 ≠ k) :
    mapGet (mapDelete m k) k2 = mapGet m k2 := by
  induction m with
  | nil => rfl
  | cons kv rest ih =>
    obtain ⟨k1, v1⟩ := kv
    by_cases h : k1 = k
    · subst h
      simpa [mapDelete, mapGet, hne.symm] using ih
    · by_cases h2 : k1 = k2
      · subst h2
        simp [mapDelete, h, mapGet]
      · simpa [mapDelete, h, mapGet, h2] using ih

theorem SetNamespace_name (obj : Unstructured) (ns : String)
    (hmeta : mapGet obj.Object "metadata" = none ∨
      ∃ m, mapGet obj.Object "metadata" = some (.map m)) :
    (obj.SetNamespace ns).GetName = obj.GetName := by
  unfold Unstructured.SetNamespace Unstructured.GetName
  by_cases hlen : ns.length = 0
  · simp only [hlen, if_true, RemoveNestedField]
    rcases hmeta with hnone | ⟨m, hsome⟩
    · simp [hnone]
    · simp [hsome, getNestedString, NestedString, NestedFieldNoCopy, mapGet_mapSet_same,
        mapGet_mapDelete_ne]
  · simp only [hlen, if_false]
    rcases hmeta with hnone | ⟨m, hsome⟩
    · simp [setNestedFieldNoCopy, hnone, getNestedString, NestedString, NestedFieldNoCopy,
        mapGet_mapSet_same, mapSet, mapGet]
    · simp [setNestedFieldNoCopy, hsome, getNestedString, NestedString, NestedFieldNoCopy,
        mapGet_mapSet_same, mapGet_mapSet_ne]

/-- Without a controller override the loop body of `GetObjects` does overwrite
the pod security context of the controller Deployment on OpenShift. -/
theorem patchRendered_security_context (h : MetalLBChart) (conv : Converter)
    (crdConfig : MetalLBResource) (obj r : Unstructured)
    (hocp : h.config.isOpenShift = true) (hcc : crdConfig.Spec.ControllerConfig = none)
    (hmeta : mapGet obj.Object "metadata" = none ∨
      ∃ m, mapGet obj.Object "metadata" = some (.map m))
    (hctl : isControllerDeployment obj = true)
    (hr : patchRendered h conv crdConfig obj = .ok r) :
    NestedFieldNoCopy (.map r.Object) ["spec", "template", "spec", "securityContext"] =
      .found (.map [("runAsNonRoot", .bool true)]) := by
  have hkn : obj.GetKind = "Deployment" ∧ obj.GetName = "controller" := by
    simpa [isControllerDeployment] using hctl
  have hpsp : obj.GetKind ≠ "PodSecurityPolicy" := by
    rw [hkn.1]
    decide
  have hk1 : (obj.SetNamespace h.nameSpace).GetKind = "Deployment" :=
    (SetNamespace_kind obj h.nameSpace).trans hkn.1
  have hn1 : (obj.SetNamespace h.nameSpace).GetName = "controller" :=
    (SetNamespace_name obj h.nameSpace hmeta).trans hkn.2
  have hctl1 : isControllerDeployment (obj.SetNamespace h.nameSpace) = true := by
    simp [isControllerDeployment, hk1, hn1]
  have hsp1 : isSpeakerDaemonSet (obj.SetNamespace h.nameSpace) = false := by
    simp [isSpeakerDaemonSet, hk1]
  have hc : overrideControllerParameters conv crdConfig (obj.SetNamespace h.nameSpace) =
      .ok .arg := by
    unfold overrideControllerParameters
    simp [hcc]
  have hs : overrideSpeakerParameters conv crdConfig (obj.SetNamespace h.nameSpace) =
      .ok .arg := by
    unfold overrideSpeakerParameters
    cases crdConfig.Spec.SpeakerConfig <;> simp [hsp1]
  unfold patchRendered at hr
  simp only [hpsp, ne_eq, not_false_eq_true, if_true, hc, Returned.deref, hs, hctl1, hocp,
    Bool.and_self] at hr
  cases hm : setNestedFieldNoCopy (obj.SetNamespace h.nameSpace).Object
      (.map [("runAsNonRoot", .bool true)]) ["spec", "template", "spec", "securityContext"] with
  | error e => simp [hm] at hr
  | ok m =>
    have hread := setNestedFieldNoCopy_read _ _ (by simp) _ m hm
    have hkm : (Unstructured.mk m).GetKind = "Deployment" :=
      (meta_of_frame ⟨m⟩ (obj.SetNamespace h.nameSpace) "spec" (by decide) (by decide)
        (fun k hk => setNestedFieldNoCopy_frame _ _ _ _ m hm k hk)).1.trans hk1
    have hmon : isServiceMonitor ⟨m⟩ = false := by
      simp [isServiceMonitor, hkm]
    simp only [hm, hmon, Bool.false_and, Bool.false_eq_true, if_false, Except.ok.injEq] at hr
    subst hr
    exact hread

/-! ## Two successive calls when the listing order changes -/

/-- C2, evaluated on two address pools that share a name, with the custom
resource present and no artifact: the first call creates the artifact; nothing
else writes to the store; at the second call the store lists the same two pools
in the other order, the snapshot follows that order, the rendered data differs
from the stored data and the second call issues an `Update`. -/
theorem reconcileConfigMap_second_call_updates :
    (reconcileConfigMap storeClient (OperatorConfigToMetalLB serializePools)
      "metallb" "metallb-system" schemeWithMetalLB storeSameName).writes =
      [Write.create createdSameName] ∧
    (reconcileConfigMap storeClient (OperatorConfigToMetalLB serializePools)
      "metallb" "metallb-system" schemeWithMetalLB storeSameName).result = .ok () ∧
    (reconcileConfigMap storeClient (OperatorConfigToMetalLB serializePools)
      "metallb" "metallb-system" schemeWithMetalLB storeSameName).store =
      storeSameNameCreated ∧
    storeSameNameRelisted.AddressPools.Perm storeSameNameCreated.AddressPools ∧
    storeSameNameRelisted.BGPPeers = storeSameNameCreated.BGPPeers ∧
    storeSameNameRelisted.BFDProfiles = storeSameNameCreated.BFDProfiles ∧
    storeSameNameRelisted.ConfigMaps = storeSameNameCreated.ConfigMaps ∧
    storeSameNameRelisted.MetalLBs = storeSameNameCreated.MetalLBs ∧
    (reconcileConfigMap storeClient (OperatorConfigToMetalLB serializePools)
      "metallb" "metallb-system" schemeWithMetalLB storeSameNameRelisted).writes =
      [Write.update
        { createdSameName with Data := [("config", "pool=10.0.0.0/8;pool=192.168.1.0/24;")] }] :=
  ⟨rfl, rfl, rfl, List.Perm.swap _ _ _, rfl, rfl, rfl, rfl, rfl⟩

theorem reconcileConfigMap_store_cases {σ : Type} (c : Client σ)
    (render : OperatorConfig → Except Error ConfigMap) (crName nameSpace : String)
    (scheme : Scheme) (s : σ) :
    (reconcileConfigMap c render crName nameSpace scheme s).store = s ∨
      ∃ o, (reconcileConfigMap c render crName nameSpace scheme s).store = (c.Create s o).2 ∨
        (reconcileConfigMap c render crName nameSpace scheme s).store = (c.Update s o).2 := by
  cases hcfg : operatorConfig c s with
  | error e =>
    left
    unfold reconcileConfigMap
    simp [hcfg]
  | ok config =>
    cases hr : render { config with NameSpace := nameSpace, ConfigMapName := ConfigMapName } with
    | error e =>
      left
      unfold reconcileConfigMap
      simp [hcfg, hr]
    | ok rendered =>
      cases hget : c.GetConfigMap s nameSpace ConfigMapName with
      | ok existing =>
        rw [reconcileConfigMap_of_present c render crName nameSpace scheme s config rendered
          existing hcfg hr hget]
        split
        · exact Or.inl rfl
        · exact Or.inr ⟨_, Or.inr rfl⟩
      | error e =>
        by_cases he : IsNotFound e = true
        · rw [reconcileConfigMap_of_absent c render crName nameSpace scheme s config rendered e
            hcfg hr hget he]
          split
          · exact Or.inl rfl
          · split
            · exact Or.inl rfl
            · exact Or.inr ⟨_, Or.inl rfl⟩
        · unfold reconcileConfigMap
          simp only [hcfg, hr, hget, getInto, isNotFoundErr, he]
          by_cases hd : dataAt ConfigMap.zero.Data ConfigDataField =
              dataAt rendered.Data ConfigDataField
          · left
            simp [hd]
          · right
            refine ⟨{ rendered with OwnerReferences := ConfigMap.zero.OwnerReferences }, Or.inr ?_⟩
            simp [hd]

theorem storeClient_write_frame (s o : _) :
    ((storeClient.Create s o).2.AddressPools = s.AddressPools ∧
      (storeClient.Create s o).2.BGPPeers = s.BGPPeers ∧
      (storeClient.Create s o).2.BFDProfiles = s.BFDProfiles ∧
      (storeClient.Create s o).2.MetalLBs = s.MetalLBs) ∧
    ((storeClient.Update s o).2.AddressPools = s.AddressPools ∧
      (storeClient.Update s o).2.BGPPeers = s.BGPPeers ∧
      (storeClient.Update s o).2.BFDProfiles = s.BFDProfiles ∧
      (storeClient.Update s o).2.MetalLBs = s.MetalLBs) := by
  constructor
  · simp only [storeClient]
    split <;> exact ⟨rfl, rfl, rfl, rfl⟩
  · simp only [storeClient]
    split <;> exact ⟨rfl, rfl, rfl, rfl⟩

/-- A call on the in-memory store leaves the listed collections and the custom
resources as they were. -/
theorem reconcileConfigMap_storeClient_frame
    (render : OperatorConfig → Except Error ConfigMap) (crName nameSpace : String)
    (scheme : Scheme) (s : Store) :
    (reconcileConfigMap storeClient render crName nameSpace scheme s).store.AddressPools =
        s.AddressPools ∧
      (reconcileConfigMap storeClient render crName nameSpace scheme s).store.BGPPeers =
        s.BGPPeers ∧
      (reconcileConfigMap storeClient render crName nameSpace scheme s).store.BFDProfiles =
        s.BFDProfiles ∧
      (reconcileConfigMap storeClient render crName nameSpace scheme s).store.MetalLBs =
        s.MetalLBs := by
  rcases reconcileConfigMap_store_cases storeClient render crName nameSpace scheme s with
    h | ⟨o, h | h⟩
  · rw [h]
    exact ⟨rfl, rfl, rfl, rfl⟩
  · rw [h]
    exact (storeClient_write_frame s o).1
  · rw [h]
    exact (storeClient_write_frame s o).2

/-- On the in-memory store the writes of a call depend on the snapshot, the
config maps and the custom resources only. -/
theorem reconcileConfigMap_writes_congr
    (render : OperatorConfig → Except Error ConfigMap) (crName nameSpace : String)
    (scheme : Scheme) (a b : Store)
    (hop : operatorConfig storeClient a = operatorConfig storeClient b)
    (hcm : a.ConfigMaps = b.ConfigMaps) (hml : a.MetalLBs = b.MetalLBs) :
    (reconcileConfigMap storeClient render crName nameSpace scheme a).writes =
      (reconcileConfigMap storeClient render crName nameSpace scheme b).writes := by
  obtain ⟨config, hcfgb⟩ : ∃ config, operatorConfig storeClient b = .ok config :=
    ⟨_, operatorConfig_storeClient b⟩
  have hcfga : operatorConfig storeClient a = .ok config := hop.trans hcfgb
  have hgeq : storeClient.GetConfigMap a nameSpace ConfigMapName =
      storeClient.GetConfigMap b nameSpace ConfigMapName := by
    simp only [storeClient, hcm]
  have hmeq : storeClient.GetMetalLB a nameSpace crName =
      storeClient.GetMetalLB b nameSpace crName := by
    simp only [storeClient, hml]
  cases hr : render { config with NameSpace := nameSpace, ConfigMapName := ConfigMapName } with
  | error e =>
    unfold reconcileConfigMap
    simp [hcfga, hcfgb, hr]
  | ok rendered =>
    cases hget : storeClient.GetConfigMap b nameSpace ConfigMapName with
    | ok existing =>
      rw [reconcileConfigMap_of_present storeClient render crName nameSpace scheme a config
          rendered existing hcfga hr (hgeq.trans hget),
        reconcileConfigMap_of_present storeClient render crName nameSpace scheme b config
          rendered existing hcfgb hr hget]
      split <;> rfl
    | error e =>
      have he : IsNotFound e = true := by
        simp only [storeClient] at hget
        split at hget
        · cases hget
        · injection hget with hget
          subst hget
          rfl
      rw [reconcileConfigMap_of_absent storeClient render crName nameSpace scheme a config
          rendered e hcfga hr (hgeq.trans hget) he,
        reconcileConfigMap_of_absent storeClient render crName nameSpace scheme b config
          rendered e hcfgb hr hget he, hmeq]
      split
      · rfl
      · split <;> rfl

/-- On the in-memory store, when the names within each collection are pairwise
distinct, the call that follows a call writes nothing even if the store lists
the same collections in another order: the sort makes both snapshots equal. -/
theorem reconcileConfigMap_relisted_noop
    (render : OperatorConfig → Except Error ConfigMap) (crName nameSpace : String)
    (scheme : Scheme) (s t : Store)
    (hrender : ∀ cfg r, render cfg = .ok r →
      r.Name = cfg.ConfigMapName ∧ r.Namespace = cfg.NameSpace)
    (d1 : (s.AddressPools.map (fun a => a.Name)).Nodup)
    (d2 : (s.BGPPeers.map (fun a => a.Name)).Nodup)
    (d3 : (s.BFDProfiles.map (fun a => a.Name)).Nodup)
    (p1 : s.AddressPools.Perm t.AddressPools) (p2 : s.BGPPeers.Perm t.BGPPeers)
    (p3 : s.BFDProfiles.Perm t.BFDProfiles)
    (hcm : t.ConfigMaps =
      (reconcileConfigMap storeClient render crName nameSpace scheme s).store.ConfigMaps)
    (hml : t.MetalLBs =
      (reconcileConfigMap storeClient render crName nameSpace scheme s).store.MetalLBs) :
    (reconcileConfigMap storeClient render crName nameSpace scheme t).writes = [] := by
  obtain ⟨f1, f2, f3, -⟩ :=
    reconcileConfigMap_storeClient_frame render crName nameSpace scheme s
  have hop : operatorConfig storeClient t = operatorConfig storeClient
      (reconcileConfigMap storeClient render crName nameSpace scheme s).store :=
    ((operatorConfig_storeClient_congr s _ f1 f2 f3).trans
      (operatorConfig_eq_of_perm_of_distinct_names s t p1 p2 p3 d1 d2 d3)).symm
  rw [reconcileConfigMap_writes_congr render crName nameSpace scheme t _ hop hcm hml]
  rcases reconcileConfigMap_storeClient_step render crName nameSpace scheme s hrender with
    ⟨hw, hs⟩ | ⟨obj, config, rendered, -, hcfg, hr, hget, hd⟩
  · rw [hs]
    exact hw
  · rw [reconcileConfigMap_of_present storeClient render crName nameSpace scheme _ config
      rendered obj hcfg hr hget, if_pos hd]

end MetalLBOperator
